import Mathlib

/-!
# ircts: connection management, capability negotiation and result tracking

A shallow embedding of the Go sources of `ircdocs/ircts`
(`ircts.go`, `lib/conn/socket.go`, `lib/conn/connections.go`,
`lib/tests/tests.go`, `lib/tests/saslSuite.go`, `lib/utils/config.go`).

Conventions of the embedding.

* Go maps are association lists without repeated keys (`GoMap`); an absent key
  reads as `none`.
* Objects reached through pointers (`*Socket`, `*Connection`) live in a memory
  indexed by addresses (`Nat`); methods with a pointer receiver take the address
  and the memory and give back the memory.
* Go `error` values are the type `GoError`; `nil` is `none`.
* The network stream under a `Socket` is a finite record of the chunks still to
  be delivered and of what has been written; a read past the end reports `EOF`.
* Functions of libraries outside the repository (`ircmsg.ParseLine`,
  `ircmsg.MakeMessage(...).Line()`, `strings.ToUpper`, `base64`) are the fields
  of a structure `Libs` that the embedded code takes as an argument.
* Mutexes are not modelled: the program is single-threaded.
-/

namespace Ircts

/-! ## Go maps -/

/-- A Go map: association list, every key at most once. -/
abbrev GoMap (K V : Type) := List (K × V)

namespace GoMap

variable {K V : Type} [DecidableEq K]

/-- Reading `m[k]` with the comma-ok form: `none` when the key is absent. -/
def get? : GoMap K V → K → Option V
  | [], _ => none
  | (k', v) :: rest, k => if k' = k then some v else get? rest k

/-- The assignment `m[k] = v`: replaces the entry of `k` or adds one. -/
def set : GoMap K V → K → V → GoMap K V
  | [], k, v => [(k, v)]
  | (k', v') :: rest, k, v => if k' = k then (k, v) :: rest else (k', v') :: set rest k v

/-- The builtin `delete(m, k)`. -/
def delete : GoMap K V → K → GoMap K V
  | [], _ => []
  | (k', v') :: rest, k => if k' = k then delete rest k else (k', v') :: delete rest k

/-- The keys of the map, in insertion order. -/
def keys (m : GoMap K V) : List K := m.map Prod.fst

end GoMap

/-! ## Errors -/

/-- Go `error` values met by the program. `ErrorDisconnected` is the package
variable of `lib/conn/socket.go`; the others carry their message. -/
inductive GoError where
  | ErrorDisconnected
  | EOF
  | closedConn
  | other (msg : String)
  deriving DecidableEq, Repr

/-- The method `Error()` of an error value. -/
def GoError.Error : GoError → String
  | .ErrorDisconnected => "Socket is disconnected"
  | .EOF => "EOF"
  | .closedConn => "use of closed network connection"
  | .other msg => msg

/-! ## String functions of the Go standard library used by the program -/

/-- The predicate `unicode.IsSpace`. -/
def isSpace (c : Char) : Bool :=
  let n := c.toNat
  (9 ≤ n && n ≤ 13) || n == 32 || n == 0x85 || n == 0xA0 || n == 0x1680 ||
  (0x2000 ≤ n && n ≤ 0x200A) || n == 0x2028 || n == 0x2029 || n == 0x202F ||
  n == 0x205F || n == 0x3000

/-- Worker of `Fields` on character lists: `cur` is the field being read, reversed. -/
def fieldsAux : List Char → List Char → List (List Char)
  | [], cur => if cur.isEmpty then [] else [cur.reverse]
  | c :: cs, cur =>
    if isSpace c then
      (if cur.isEmpty then fieldsAux cs [] else cur.reverse :: fieldsAux cs [])
    else fieldsAux cs (c :: cur)

/-- The function `strings.Fields`: the maximal runs of non-space characters. -/
def Fields (s : String) : List String :=
  (fieldsAux s.data []).map String.mk

/-- Worker of `SplitN2`: splits a character list at the first `sep`. -/
def splitFirst (sep : Char) : List Char → Option (List Char × List Char)
  | [] => none
  | c :: cs =>
    if c = sep then some ([], cs)
    else match splitFirst sep cs with
      | none => none
      | some (a, b) => some (c :: a, b)

/-- The call `strings.SplitN(s, sep, 2)` for a separator of one character:
one piece when `sep` does not occur, otherwise the text before the first `sep`
and the text after it. -/
def SplitN2 (s : String) (sep : Char) : List String :=
  match splitFirst sep s.data with
  | none => [s]
  | some (a, b) => [String.mk a, String.mk b]

/-- The function `strings.TrimRight(s, cutset)`. -/
def TrimRight (s cutset : String) : String :=
  String.mk (s.data.reverse.dropWhile (fun c => decide (c ∈ cutset.data))).reverse

/-! ## lib/tests/tests.go: results -/

/-- The type `TestReturn`. -/
inductive TestReturn where
  | Success
  | Failure
  | NotApplicable
  deriving DecidableEq, Repr

/-- The struct `TestResults`. -/
structure TestResults where
  resultCode : GoMap String TestReturn
  resultText : GoMap String String
  resultTraffic : GoMap String String
  deriving DecidableEq, Repr

/-- The constructor `NewTestResults`. -/
def NewTestResults : TestResults :=
  { resultCode := [], resultText := [], resultTraffic := [] }

/-- The method `TestResults.Set`. The third assignment stores `text`, as the
source does (`tr.resultTraffic[name] = text`). -/
def TestResults.Set (tr : TestResults) (name : String) (code : TestReturn)
    (text _traffic : String) : TestResults :=
  { resultCode := tr.resultCode.set name code
    resultText := tr.resultText.set name text
    resultTraffic := tr.resultTraffic.set name text }

/-- The map `TestReturnStrings`. -/
def TestReturnStrings : TestReturn → String
  | .Success => "Success"
  | .Failure => "Failed"
  | .NotApplicable => "N/A"

/-- The method `TestResults.Print`, as the list of the lines it prints. Reading
an absent key gives the zero value of the map's element type. -/
def TestResults.Print (tr : TestResults) (name : String) : List String :=
  let result := (tr.resultCode.get? name).getD .Success
  [name ++ " - " ++ TestReturnStrings result,
   "   " ++ (tr.resultText.get? name).getD ""] ++
  (if result = .Failure then ["---", (tr.resultTraffic.get? name).getD "", "---"] else [])

/-! ## Libraries outside the repository -/

/-- The fields of `ircmsg.IrcMessage` that the program reads. -/
structure IrcMessage where
  Command : String
  Params : List String
  deriving DecidableEq, Repr

/-- The type `*map[string]ircmsg.TagValue`; `none` is the nil pointer. -/
abbrev Tags := Option (GoMap String (Option String))

/-- Library functions the program calls and the repository does not contain.
`Line tags pfx command params` stands for
`ircmsg.MakeMessage(tags, pfx, command, params...).Line()`, and
`EncodeToString` for `base64.StdEncoding.EncodeToString` (the byte slice is
given as the string with the same bytes). -/
structure Libs where
  ParseLine : String → Except GoError IrcMessage
  Line : Tags → String → String → List String → Except GoError String
  ToUpper : String → String
  EncodeToString : String → String

/-! ## lib/conn/socket.go -/

/-- The `net.Conn` of a socket seen through its `bufio.Reader` and
`bufio.Writer`: `pending` lists what the coming `ReadBytes` calls deliver,
`written` is everything written and flushed so far. -/
structure NetConn where
  pending : List String
  written : String
  closed : Bool
  deriving DecidableEq, Repr, Inhabited

/-- The call `reader.ReadBytes(10)`: the next chunk, with a nil error exactly
when the chunk ends in the delimiter; `EOF` once the stream is exhausted. -/
def NetConn.ReadBytes (n : NetConn) : (String × Option GoError) × NetConn :=
  if n.closed then (("", some .closedConn), n)
  else match n.pending with
    | [] => (("", some .EOF), n)
    | chunk :: rest =>
      if chunk.data.getLast? = some (Char.ofNat 10) then
        ((chunk, none), { n with pending := rest })
      else ((chunk, some .EOF), { n with pending := rest })

/-- The calls `writer.WriteString(data)` followed, when that succeeds, by
`writer.Flush()`. -/
def NetConn.WriteFlush (n : NetConn) (data : String) : Option GoError × NetConn :=
  if n.closed then (some .closedConn, n)
  else (none, { n with written := n.written ++ data })

/-- The method `Close` of `net.Conn`. -/
def NetConn.Close (n : NetConn) : NetConn := { n with closed := true }

/-- The struct `Socket`; `reader` and `writer` are views of `connection`. -/
structure Socket where
  connection : NetConn
  connected : Bool
  deriving DecidableEq, Repr, Inhabited

/-- The function `MakeSocket`. -/
def MakeSocket (conn : NetConn) : Socket :=
  { connected := true, connection := conn }

/-- The method `Socket.Connected`. -/
def Socket.Connected (s : Socket) : Bool := s.connected

/-- The method `Socket.GetLine`. -/
def Socket.GetLine (s : Socket) : (String × Option GoError) × Socket :=
  if !s.Connected then (("", some .ErrorDisconnected), s)
  else
    let r := s.connection.ReadBytes
    ((TrimRight r.1.1 "\r\n", r.1.2), { s with connection := r.2 })

/-- The method `Socket.SendLine`. -/
def Socket.SendLine (s : Socket) (line : String) : Option GoError × Socket :=
  if !s.Connected then (some .ErrorDisconnected, s)
  else
    let r := s.connection.WriteFlush (line ++ "\r\n")
    (r.1, { s with connection := r.2 })

/-- The method `Socket.SendMessage`. -/
def Socket.SendMessage (L : Libs) (s : Socket) (tags : Tags) (pfx command : String)
    (params : List String) : Option GoError × Socket :=
  match L.Line tags pfx command params with
  | .error err => (some err, s)
  | .ok line => s.SendLine line

/-- The method `Socket.Disconnect`. The guard is the source's `if !s.connected`. -/
def Socket.Disconnect (s : Socket) : Socket :=
  if !s.connected then
    { connected := false, connection := s.connection.Close }
  else s

/-! ## lib/utils/config.go -/

/-- The struct `AccountConfig`. -/
structure AccountConfig where
  Username : String
  Password : String
  deriving DecidableEq, Repr

/-- The struct `ServerConfig`. -/
structure ServerConfig where
  Address : String
  TLS : Bool
  Password : Option String
  ResetBetweenTests : Bool
  deriving DecidableEq, Repr

/-- The struct `Config`. -/
structure Config where
  Server : ServerConfig
  Accounts : List AccountConfig
  deriving DecidableEq, Repr

/-! ## lib/conn/connections.go -/

/-- The struct `Connection`; `socket` is the address of its `Socket`. -/
structure Connection where
  nick : String
  socket : Nat
  traffic : String
  deriving DecidableEq, Repr, Inhabited

/-- Everything outside the run manager: the memory holding the `Socket` and
`Connection` objects, the allocator, and the environment (the outcomes of the
coming dial attempts, the nicknames the random source will produce). -/
structure World where
  sockets : Nat → Socket
  conns : Nat → Connection
  nextSocket : Nat
  nextConn : Nat
  dials : List (Except GoError NetConn)
  entropy : List String

/-- A world with empty memory and the given environment. -/
def World.init (dials : List (Except GoError NetConn)) (entropy : List String) : World :=
  { sockets := fun _ => default, conns := fun _ => default,
    nextSocket := 0, nextConn := 0, dials := dials, entropy := entropy }

/-- The function `ConnectSocket`: the dial succeeds or fails as the environment
decides; on success a connected `Socket` is allocated. -/
def ConnectSocket (_address : String) (_useTLS : Bool) (w : World) :
    Except GoError Nat × World :=
  match w.dials with
  | [] => (.error (.other "dial tcp: connection refused"), w)
  | .error err :: rest => (.error err, { w with dials := rest })
  | .ok conn :: rest =>
    (.ok w.nextSocket,
      { w with
        dials := rest
        sockets := Function.update w.sockets w.nextSocket
          { connected := true, connection := conn }
        nextSocket := w.nextSocket + 1 })

/-- The method `Connection.Traffic`. -/
def Connection.Traffic (w : World) (c : Nat) : String := (w.conns c).traffic

/-- The method `Connection.SendLine`. -/
def Connection.SendLine (c : Nat) (line : String) (w : World) : Option GoError × World :=
  let conn := w.conns c
  let w1 := { w with
    conns := Function.update w.conns c
      { conn with traffic := conn.traffic ++ " -> " ++ line ++ "\n" } }
  let r := (w1.sockets conn.socket).SendLine line
  (r.1, { w1 with sockets := Function.update w1.sockets conn.socket r.2 })

/-- The method `Connection.SendMessage`. -/
def Connection.SendMessage (L : Libs) (c : Nat) (tags : Tags) (pfx command : String)
    (params : List String) (w : World) : Option GoError × World :=
  let conn := w.conns c
  let r := (w.sockets conn.socket).SendMessage L tags pfx command params
  (r.1, { w with sockets := Function.update w.sockets conn.socket r.2 })

/-- The method `Connection.SendSimpleMessage`. -/
def Connection.SendSimpleMessage (L : Libs) (c : Nat) (command : String)
    (params : List String) (w : World) : Option GoError × World :=
  Connection.SendMessage L c none "" command params w

/-- The method `Connection.GetLine`. -/
def Connection.GetLine (c : Nat) (w : World) : (String × Option GoError) × World :=
  let conn := w.conns c
  let r := (w.sockets conn.socket).GetLine
  let w1 := { w with sockets := Function.update w.sockets conn.socket r.2 }
  match r.1.2 with
  | none =>
    ((r.1.1, none), { w1 with
      conns := Function.update w1.conns c
        { conn with traffic := conn.traffic ++ "<-  " ++ r.1.1 ++ "\n" } })
  | some err => ((r.1.1, some err), w1)

/-- The struct `ConnectionPool`: `connections` maps the address of a
`Connection` to its in-use flag. -/
structure ConnectionPool where
  connections : GoMap Nat Bool
  deriving DecidableEq, Repr

/-- The function `NewConnectionPool`. -/
def NewConnectionPool : ConnectionPool := { connections := [] }

/-- The method `ConnectionPool.NewConnection`. -/
def ConnectionPool.NewConnection (cp : ConnectionPool) (sc : ServerConfig) (w : World) :
    Except GoError Nat × ConnectionPool × World :=
  match ConnectSocket sc.Address sc.TLS w with
  | (.error err, w1) =>
    (.error (.other ("Failed to connect to server: " ++ err.Error)), cp, w1)
  | (.ok socket, w1) =>
    let c := w1.nextConn
    (.ok c, { connections := cp.connections.set c true },
      { w1 with
        conns := Function.update w1.conns c { nick := "", socket := socket, traffic := "" }
        nextConn := c + 1 })

/-- The method `ConnectionPool.DestroyConnection`. -/
def ConnectionPool.DestroyConnection (cp : ConnectionPool) (c : Nat) (w : World) :
    ConnectionPool × World :=
  let s := (w.conns c).socket
  ({ connections := cp.connections.delete c },
    { w with sockets := Function.update w.sockets s (w.sockets s).Disconnect })

/-! ## lib/tests/tests.go: tests and the run manager -/

/-- The struct `RunManager`. -/
structure RunManager where
  Config : Config
  Pool : ConnectionPool
  Results : TestResults

/-- The method `RunManager.NewNick`: the nine characters `str[:len]` computed
from the next read of the random source; a read that delivers nothing leaves
the buffer zeroed, whose encoding starts with nine `A`. -/
def RunManager.NewNick (w : World) : String × World :=
  match w.entropy with
  | [] => ("AAAAAAAAA", w)
  | nick :: rest => (nick, { w with entropy := rest })

/-- One call `rm.Results.Set(name, code, text, traffic)`. -/
structure SetCall where
  name : String
  code : TestReturn
  text : String
  traffic : String
  deriving DecidableEq, Repr

/-- Performs a recorded call of `Set`. -/
def SetCall.apply (tr : TestResults) (call : SetCall) : TestResults :=
  tr.Set call.name call.code call.text call.traffic

/-- What one call of a handler does: the calls of `rm.Results.Set` it makes, in
order, the boolean it returns, and the pool and the world it leaves. -/
structure HandlerRun where
  sets : List SetCall
  ret : Bool
  pool : ConnectionPool
  world : World

/-- The struct `Test`. A handler receives the test name and the run manager
(with the world the run manager points into); `none` stands for a handler that
does not return. -/
structure Test where
  Name : String
  Description : String
  ClientsRequiredAtStart : Int
  RequiredCaps : List String
  Handler : String → RunManager → World → Option HandlerRun

/-- The struct `TestGroup`. -/
structure TestGroup where
  Name : String
  Description : String
  Tests : List Test

/-- The type `TestGroupCollection`. -/
abbrev TestGroupCollection := List TestGroup

/-- The composite identifier `fmt.Sprintf("%s-%s", TG.Name, Test.Name)`. -/
def testId (TG : TestGroup) (T : Test) : String := TG.Name ++ "-" ++ T.Name

/-! ## lib/tests/saslSuite.go -/

/-- Chunks still to be delivered on the socket of connection `c`. -/
def pendingOf (w : World) (c : Nat) : List String :=
  (w.sockets (w.conns c).socket).connection.pending

/-- The numerics of the final `for _, cmd := range` of the handler loop. -/
def saslFailureNumerics : List String := ["901", "902", "904", "905", "906", "907", "908"]

/-- The reply loop `for { ... }` of the Login-PLAIN handler on connection `c`.
Gives the call of `Set` made on the way out, the returned boolean and the
world; `none` when `fuel` iterations did not reach a `return`. -/
def saslLoop (L : Libs) (name : String) (c : Nat) :
    Nat → Bool → Bool → World → Option (SetCall × Bool × World)
  | 0, _, _, _ => none
  | fuel + 1, got900, got903, w =>
    let r := Connection.GetLine c w
    match r.1.2 with
    | some err =>
      some (⟨name, .Failure, "Could not get reply line: " ++ err.Error,
        Connection.Traffic r.2 c⟩, true, r.2)
    | none =>
      match L.ParseLine r.1.1 with
      | .error err =>
        some (⟨name, .Failure, "Failed to parse reply line: " ++ err.Error,
          Connection.Traffic r.2 c⟩, true, r.2)
      | .ok msg =>
        if msg.Command = "001" then
          if got900 && got903 then
            some (⟨name, .Success,
              "Successfully completed SASL PLAIN (username+password) authentication",
              Connection.Traffic r.2 c⟩, true, r.2)
          else
            some (⟨name, .Failure,
              "RPL_WELCOME (001) encountered before SASL success numerics",
              Connection.Traffic r.2 c⟩, true, r.2)
        else
          let got900 := if msg.Command = "900" then true else got900
          if msg.Command = "903" ∧ !got900 then
            some (⟨name, .Failure,
              "Got RPL_SASLSUCCESS (903) before or without getting RPL_LOGGEDIN (900)",
              Connection.Traffic r.2 c⟩, true, r.2)
          else
            let got903 := if msg.Command = "903" then true else got903
            if msg.Command ∈ saslFailureNumerics then
              some (⟨name, .Failure,
                "Got unexpected SASL failure or informational numeric",
                Connection.Traffic r.2 c⟩, true, r.2)
            else saslLoop L name c fuel got900 got903 r.2

/-- The messages the handler sends before it starts reading replies. -/
def saslSendAll (L : Libs) (name : String) (acc : AccountConfig) (c : Nat) (w : World) :
    World :=
  let w := (Connection.SendSimpleMessage L c "CAP" ["REQ", "sasl"] w).2
  let nick := RunManager.NewNick w
  let w := (Connection.SendSimpleMessage L c "NICK" [nick.1] nick.2).2
  let w := (Connection.SendSimpleMessage L c "USER" ["t", "0", "*", name] w).2
  let w := (Connection.SendSimpleMessage L c "AUTHENTICATE" ["PLAIN"] w).2
  let authBytes := acc.Username ++ "\x00" ++ acc.Username ++ "\x00" ++ acc.Password
  let w := (Connection.SendSimpleMessage L c "AUTHENTICATE" [L.EncodeToString authBytes] w).2
  (Connection.SendSimpleMessage L c "CAP END" [] w).2

/-- The handler of the test `saslLoginPlainTest`. The loop gets one iteration
per chunk the connection can still deliver, and one more for the read that fails. -/
def saslLoginPlainHandler (L : Libs) (name : String) (rm : RunManager) (w : World) :
    Option HandlerRun :=
  match rm.Config.Accounts with
  | [] =>
    some { sets := [⟨name, .NotApplicable,
              "No SASL PLAIN account (username+password) defined in config", ""⟩]
           ret := true, pool := rm.Pool, world := w }
  | acc :: _ =>
    match rm.Pool.NewConnection rm.Config.Server w with
    | (.error err, pool, w1) =>
      some { sets := [⟨name, .Failure,
                "Could not setup new connection: " ++ err.Error, ""⟩]
             ret := false, pool := pool, world := w1 }
    | (.ok c, pool, w1) =>
      let w2 := saslSendAll L name acc c w1
      match saslLoop L name c ((pendingOf w2 c).length + 1) false false w2 with
      | none => none
      | some (call, ret, w3) =>
        let d := pool.DestroyConnection c w3
        some { sets := [call], ret := ret, pool := d.1, world := d.2 }

/-- The test `saslLoginPlainTest`. -/
def saslLoginPlainTest (L : Libs) : Test :=
  { Name := "Login-PLAIN"
    Description := "Tests the SASL PLAIN authentication method."
    ClientsRequiredAtStart := 0
    RequiredCaps := ["sasl"]
    Handler := saslLoginPlainHandler L }

/-- The group `saslTests`. -/
def saslTests (L : Libs) : TestGroup :=
  { Name := "SASL"
    Description := "Tests SASL authentication methods."
    Tests := [saslLoginPlainTest L] }

/-- The variable `AllTests` after `init`. -/
def AllTests (L : Libs) : TestGroupCollection := [saslTests L]

/-! ## ircts.go: the function `main` -/

/-- The ways `main` stops without finishing: `log.Fatalln`, a run-time panic,
or a handler that does not return. -/
inductive Abort where
  | fatal (msg : String)
  | panic (msg : String)
  | diverge
  deriving DecidableEq, Repr

/-- The two maps `supportedCaps` and `capValues` of `main`. -/
structure CapSet where
  supportedCaps : GoMap String Bool
  capValues : GoMap String String
  deriving DecidableEq, Repr

/-- The body of the loops `for _, fullVal := range strings.Fields(...)`. -/
def addCap (caps : CapSet) (fullVal : String) : CapSet :=
  let splitVal := SplitN2 fullVal '='
  let name := splitVal.headD ""
  let value := if 1 < splitVal.length then splitVal.getD 1 "" else ""
  { supportedCaps := caps.supportedCaps.set name true
    capValues := caps.capValues.set name value }

/-- One of the loops `for _, fullVal := range strings.Fields(tokens)`. -/
def addCaps (caps : CapSet) (tokens : String) : CapSet :=
  (Fields tokens).foldl addCap caps

/-- The statement `if msg.Command == "CAP" { ... }` of the negotiation loop.
Indexing `msg.Params[3]` outside the slice is the run-time panic. -/
def capStep (L : Libs) (c : Nat) (msg : IrcMessage) (caps : CapSet) (w : World) :
    Except Abort (CapSet × World) :=
  if msg.Command = "CAP" then
    if 2 < msg.Params.length ∧ L.ToUpper (msg.Params.getD 1 "") = "LS" then
      if msg.Params.getD 2 "" = "*" then
        match msg.Params.get? 3 with
        | none => .error (.panic "runtime error: index out of range [3]")
        | some tokens => .ok (addCaps caps tokens, w)
      else
        .ok (addCaps caps (msg.Params.getD 2 ""), (Connection.SendLine c "QUIT" w).2)
    else .ok (caps, w)
  else .ok (caps, w)

/-- The loop `for err == nil { ... }` of `main` (the outer `err` is nil
throughout, the inner ones are the loop's own). `diverge` when `fuel`
iterations did not reach a `break`. -/
def capLoop (L : Libs) (c : Nat) : Nat → CapSet → World → Except Abort (CapSet × World)
  | 0, _, _ => .error .diverge
  | fuel + 1, caps, w =>
    let r := Connection.GetLine c w
    match r.1.2 with
    | some _ => .ok (caps, r.2)
    | none =>
      match L.ParseLine r.1.1 with
      | .error _ => .ok (caps, r.2)
      | .ok msg =>
        match capStep L c msg caps r.2 with
        | .error a => .error a
        | .ok (caps1, w1) => capLoop L c fuel caps1 w1

/-- The first loop of `main`: marks every test as not yet run. -/
def premark (all : TestGroupCollection) (tr : TestResults) : TestResults :=
  all.foldl (fun tr TG =>
    TG.Tests.foldl (fun tr T =>
      tr.Set (testId TG T) .NotApplicable "Test cancelled and not run" "") tr) tr

/-- The state `main` works on while it runs the tests: the run manager, the
world, and the record of the calls of `Results.Set` that handlers have made so
far (kept for stating properties; the program does not read it). -/
structure RunState where
  rm : RunManager
  world : World
  setLog : List SetCall

/-- The statement `Test.Handler(name, rm)`: the handler acts on the run
manager; the returned boolean is dropped. -/
def runTest (TG : TestGroup) (T : Test) (st : RunState) : Except Abort RunState :=
  match T.Handler (testId TG T) st.rm st.world with
  | none => .error .diverge
  | some run =>
    .ok { rm := { Config := st.rm.Config, Pool := run.pool,
                  Results := run.sets.foldl SetCall.apply st.rm.Results }
          world := run.world
          setLog := st.setLog ++ run.sets }

/-- The inner loop `for _, Test := range TG.Tests`. -/
def runGroup (TG : TestGroup) : List Test → RunState → Except Abort RunState
  | [], st => .ok st
  | T :: rest, st =>
    match runTest TG T st with
    | .error a => .error a
    | .ok st1 => runGroup TG rest st1

/-- The outer loop `for _, TG := range tests.AllTests` that runs the tests. -/
def runAll : TestGroupCollection → RunState → Except Abort RunState
  | [], st => .ok st
  | TG :: rest, st =>
    match runGroup TG TG.Tests st with
    | .error a => .error a
    | .ok st1 => runAll rest st1

/-- The capability discovery of `main`: a throwaway connection, `CAP LS 302`,
the negotiation loop, and the destruction of the connection. -/
def discoverCaps (L : Libs) (rm : RunManager) (w : World) :
    Except Abort (CapSet × RunManager × World) :=
  match rm.Pool.NewConnection rm.Config.Server w with
  | (.error err, _, _) =>
    .error (.fatal ("Failed to connect to server for initial caps: " ++ err.Error))
  | (.ok c, pool, w1) =>
    let w2 := (Connection.SendLine c "CAP LS 302" w1).2
    match capLoop L c ((pendingOf w2 c).length + 1) ⟨[], []⟩ w2 with
    | .error a => .error a
    | .ok (caps, w3) =>
      let d := pool.DestroyConnection c w3
      .ok (caps, { rm with Pool := d.1 }, d.2)

/-- The function `main` on the branch `run`, after the configuration is loaded
(the printing of the report does not change the state and is left out). -/
def main (L : Libs) (all : TestGroupCollection) (config : Config) (w : World) :
    Except Abort RunState :=
  let rm : RunManager :=
    { Config := config, Pool := NewConnectionPool, Results := premark all NewTestResults }
  match discoverCaps L rm w with
  | .error a => .error a
  | .ok (_, rm1, w1) => runAll all { rm := rm1, world := w1, setLog := [] }

/-! ## A concrete library instance for evaluating examples -/

/-- Looks a line up in a table of parsed lines; a line outside the table is a
parse error. -/
def parseTable (table : List (String × IrcMessage)) (line : String) :
    Except GoError IrcMessage :=
  match table.find? (fun e => e.1 = line) with
  | some e => .ok e.2
  | none => .error (.other "parse error")

/-- A library instance: lines are parsed by table, messages are encoded as the
command and the parameters separated by blanks, upper-casing is that of ASCII
letters, and the base64 encoder is left the identity. -/
def tableLibs (table : List (String × IrcMessage)) : Libs :=
  { ParseLine := parseTable table
    Line := fun _ _ command params => .ok (String.intercalate " " (command :: params))
    ToUpper := fun s => String.mk (s.data.map Char.toUpper)
    EncodeToString := fun s => s }

/-! ## Concrete inputs used by the evaluations below -/

/-- A configuration with one account. -/
def exampleConfig : Config :=
  { Server := { Address := "irc.example:6667", TLS := false, Password := none,
                ResetBetweenTests := false }
    Accounts := [{ Username := "alice", Password := "hunter2" }] }

/-- A fresh stream on which the peer will deliver `chunks`. -/
def streamOf (chunks : List String) : NetConn :=
  { pending := chunks, written := "", closed := false }

/-- Parsed forms of the lines used in the examples. -/
def exampleTable : List (String × IrcMessage) :=
  [ ("CAP * LS :sasl=PLAIN,EXTERNAL multi-prefix",
      ⟨"CAP", ["*", "LS", "sasl=PLAIN,EXTERNAL multi-prefix"]⟩),
    ("CAP * LS * :sasl account-notify", ⟨"CAP", ["*", "LS", "*", "sasl account-notify"]⟩),
    ("CAP * LS :extended-join", ⟨"CAP", ["*", "LS", "extended-join"]⟩),
    ("CAP * LS :multi-prefix", ⟨"CAP", ["*", "LS", "multi-prefix"]⟩),
    ("CAP * LS *", ⟨"CAP", ["*", "LS", "*"]⟩),
    ("900", ⟨"900", []⟩), ("903", ⟨"903", []⟩), ("904", ⟨"904", []⟩),
    ("001", ⟨"001", []⟩), ("NOTICE", ⟨"NOTICE", []⟩) ]

/-- The library instance of the examples. -/
def exampleLibs : Libs := tableLibs exampleTable

/-- The abort of a run, when there is one. -/
def abortOf {α : Type} : Except Abort α → Option Abort
  | .error a => some a
  | .ok _ => none

/-- The run manager of `main` before the tests are marked. -/
def exampleRunManager : RunManager :=
  { Config := exampleConfig, Pool := NewConnectionPool, Results := NewTestResults }

/-- The world after one `NewConnection` on a stream that will deliver `chunks`:
the connection has address 0 and so has its socket. -/
def oneConnWorld (chunks : List String) : World :=
  (NewConnectionPool.NewConnection exampleConfig.Server
    (World.init [.ok (streamOf chunks)] [])).2.2

/-- A server that advertises only `multi-prefix` and answers the SASL exchange
with the numeric 904. -/
def noSaslWorld : World :=
  World.init [.ok (streamOf ["CAP * LS :multi-prefix\r\n"]), .ok (streamOf ["904\r\n"])]
    ["nick00001"]

/-- The pool and the world after two calls of `NewConnection` on an empty
pool: the connections have the addresses 0 and 1. -/
def twoConns : ConnectionPool × World :=
  let r1 := NewConnectionPool.NewConnection exampleConfig.Server
    (World.init [.ok (streamOf []), .ok (streamOf [])] [])
  let r2 := r1.2.1.NewConnection exampleConfig.Server r1.2.2
  (r2.2.1, r2.2.2)

/-- The entry of `id` in `tr` is the pre-run marker. -/
def Premarked (tr : TestResults) (id : String) : Prop :=
  tr.resultCode.get? id = some .NotApplicable ∧
  tr.resultText.get? id = some "Test cancelled and not run"

/-- A test whose handler returns at once and records nothing. -/
def silentTest : Test :=
  { Name := "Silent", Description := "", ClientsRequiredAtStart := 0, RequiredCaps := []
    Handler := fun _ rm w => some { sets := [], ret := true, pool := rm.Pool, world := w } }

/-- A group with the Login-PLAIN test followed by the silent test. -/
def silentGroup : TestGroup :=
  { Name := "SASL", Description := "", Tests := [saslLoginPlainTest exampleLibs, silentTest] }

/-- The final state of a run, or an empty state when the run aborted. -/
def finalState (r : Except Abort RunState) : RunState :=
  match r with
  | .ok st => st
  | .error _ => { rm := exampleRunManager, world := World.init [] [], setLog := [] }

/-- The run of `silentGroup` against the server of `noSaslWorld`. -/
def silentRun : RunState :=
  finalState (main exampleLibs [silentGroup] exampleConfig noSaslWorld)

/-! ## Notions used to state the properties of the reply loops -/

/-- The chunk `chunk` is a complete line (it ends in the delimiter) and the
line read from it parses to `msg`. -/
def Delivered (L : Libs) (chunk : String) (msg : IrcMessage) : Prop :=
  chunk.data.getLast? = some (Char.ofNat 10) ∧
  L.ParseLine (TrimRight chunk "\r\n") = .ok msg

/-- The socket of connection `c` is connected, its stream is open, and the
stream will deliver exactly `chunks`. -/
def SockReady (w : World) (c : Nat) (chunks : List String) : Prop :=
  (w.sockets (w.conns c).socket).connected = true ∧
  (w.sockets (w.conns c).socket).connection.closed = false ∧
  (w.sockets (w.conns c).socket).connection.pending = chunks

/-- The outcome, the explanation and the number of lines read that the reply
loop of the Login-PLAIN handler reaches on a stream carrying the commands
`cmds` and then closing, from the flags `got900` and `got903`. -/
def saslVerdict : Bool → Bool → List String → TestReturn × String × Nat
  | _, _, [] => (.Failure, "Could not get reply line: EOF", 0)
  | got900, got903, cmd :: rest =>
    if cmd = "001" then
      if got900 && got903 then
        (.Success, "Successfully completed SASL PLAIN (username+password) authentication", 1)
      else (.Failure, "RPL_WELCOME (001) encountered before SASL success numerics", 1)
    else
      let got900 := if cmd = "900" then true else got900
      if cmd = "903" ∧ !got900 then
        (.Failure, "Got RPL_SASLSUCCESS (903) before or without getting RPL_LOGGEDIN (900)", 1)
      else
        let got903 := if cmd = "903" then true else got903
        if cmd ∈ saslFailureNumerics then
          (.Failure, "Got unexpected SASL failure or informational numeric", 1)
        else
          ((saslVerdict got900 got903 rest).1, (saslVerdict got900 got903 rest).2.1,
            (saslVerdict got900 got903 rest).2.2 + 1)

/-- The success condition as the claim words it: a 001 preceded by a 900 and a
later 903, with no earlier 001 and none of 901, 902, 904 to 908 before it. -/
def ClaimedSuccess (cmds : List String) : Prop :=
  ∃ pre post, cmds = pre ++ "001" :: post ∧ "001" ∉ pre ∧
    (∀ x ∈ pre, x ∉ saslFailureNumerics) ∧
    ∃ a b c, pre = a ++ "900" :: b ++ "903" :: c

/-- No event that ends the loop occurs in `pre`: no 001, none of 901, 902,
904 to 908, and no 903 before the first 900. -/
def NoTerminal (pre : List String) : Prop :=
  "001" ∉ pre ∧ (∀ x ∈ pre, x ∉ saslFailureNumerics) ∧
  "903" ∉ pre.takeWhile (fun x => decide (x ≠ "900"))

/-- The success condition the code implements: the first terminal event is a
001 that comes after a 900 and a 903. -/
def AmendedSuccess (cmds : List String) : Prop :=
  ∃ pre post, cmds = pre ++ "001" :: post ∧ NoTerminal pre ∧ "900" ∈ pre ∧ "903" ∈ pre
/-- A server that answers the SASL exchange with 900, 903 and 001. -/
def saslOkStream : NetConn := streamOf ["900\r\n", "903\r\n", "001\r\n"]

/-- A server that answers the SASL exchange with 903, 900, 903 and 001. -/
def early903Stream : NetConn := streamOf ["903\r\n", "900\r\n", "903\r\n", "001\r\n"]

/-! ## Notions used to state the capability negotiation -/

/-- The name of an advertised token: the text before its first `=`. -/
def tokenName (tok : String) : String :=
  String.mk (tok.data.takeWhile (fun ch => decide (ch ≠ '=')))

/-- The value of an advertised token: the text after its first `=`, later `=`
included; empty when the token has no `=`. -/
def tokenValue (tok : String) : String :=
  String.mk ((tok.data.dropWhile (fun ch => decide (ch ≠ '='))).drop 1)

/-- A continuation line of a CAP LS reply: third parameter `*`, the token list
in the fourth parameter. -/
def IsContinuation (L : Libs) (msg : IrcMessage) (tokens : String) : Prop :=
  msg.Command = "CAP" ∧
  ∃ a b extra, msg.Params = a :: b :: "*" :: tokens :: extra ∧ L.ToUpper b = "LS"

/-- The terminal line of a CAP LS reply: the token list, which is not the
sentinel `*`, in the third parameter. -/
def IsTerminal (L : Libs) (msg : IrcMessage) (tokens : String) : Prop :=
  msg.Command = "CAP" ∧ tokens ≠ "*" ∧
  ∃ a b extra, msg.Params = a :: b :: tokens :: extra ∧ L.ToUpper b = "LS"

/-- The connection `c` has the socket `s` and the traffic log `traffic`; the
socket is connected, its stream is open, will deliver `chunks`, and `written`
has been written to it. -/
def ConnView (w : World) (c s : Nat) (traffic : String) (chunks : List String)
    (written : String) : Prop :=
  (w.conns c).socket = s ∧ (w.conns c).traffic = traffic ∧
  w.sockets s = { connected := true,
                  connection := { pending := chunks, written := written, closed := false } }

/-- The traffic log `traffic` extended by the inbound entries of the lines read
from `chunks`, in order. -/
def logInbound (traffic : String) (chunks : List String) : String :=
  chunks.foldl (fun t chunk => t ++ "<-  " ++ TrimRight chunk "\r\n" ++ "\n") traffic
/-- The tokens advertised by the lines whose token lists are `lists`, in order. -/
def allTokens (lists : List String) : List String := (lists.map Fields).flatten

/-- The server of the first example of the capability negotiation. -/
def capsOneLine : NetConn := streamOf ["CAP * LS :sasl=PLAIN,EXTERNAL multi-prefix\r\n"]

/-- The server of the second example: a continuation line and a terminal line. -/
def capsTwoLines : NetConn :=
  streamOf ["CAP * LS * :sasl account-notify\r\n", "CAP * LS :extended-join\r\n"]

/-- The continuation line of the second example: chunk, parsed message, tokens. -/
def contReply : String × IrcMessage × String :=
  ("CAP * LS * :sasl account-notify\r\n", ⟨"CAP", ["*", "LS", "*", "sasl account-notify"]⟩,
    "sasl account-notify")

/-- The terminal line of the second example. -/
def termReply : String × IrcMessage × String :=
  ("CAP * LS :extended-join\r\n", ⟨"CAP", ["*", "LS", "extended-join"]⟩, "extended-join")

/-- The only line of the first example. -/
def oneLineReply : String × IrcMessage × String :=
  ("CAP * LS :sasl=PLAIN,EXTERNAL multi-prefix\r\n",
    ⟨"CAP", ["*", "LS", "sasl=PLAIN,EXTERNAL multi-prefix"]⟩, "sasl=PLAIN,EXTERNAL multi-prefix")

/-- The test `T` with its list of required capabilities emptied. -/
def Test.withoutRequiredCaps (T : Test) : Test := { T with RequiredCaps := [] }

/-- The group `TG` with the required capabilities of all its tests emptied. -/
def TestGroup.withoutRequiredCaps (TG : TestGroup) : TestGroup :=
  { TG with Tests := TG.Tests.map Test.withoutRequiredCaps }

/-! # Theorems -/

/-! ## Go maps -/

theorem GoMap.get?_set_self {K V : Type} [DecidableEq K] (m : GoMap K V) (k : K) (v : V) :
    (m.set k v).get? k = some v := by
  induction m with
  | nil => simp [GoMap.set, GoMap.get?]
  | cons e rest ih =>
    obtain ⟨k', v'⟩ := e
    by_cases h : k' = k
    · simp [GoMap.set, GoMap.get?, h]
    · simp [GoMap.set, GoMap.get?, h, ih]

theorem GoMap.get?_set_ne {K V : Type} [DecidableEq K] (m : GoMap K V) (k j : K) (v : V)
    (h : k ≠ j) : (m.set k v).get? j = m.get? j := by
  induction m with
  | nil => simp [GoMap.set, GoMap.get?, h]
  | cons e rest ih =>
    obtain ⟨k', v'⟩ := e
    by_cases hk : k' = k
    · subst hk
      simp [GoMap.set, GoMap.get?, h]
    · by_cases hj : k' = j
      · subst hj
        simp [GoMap.set, GoMap.get?, hk]
      · simp [GoMap.set, GoMap.get?, hk, hj, ih]

theorem GoMap.get?_delete_self {K V : Type} [DecidableEq K] (m : GoMap K V) (k : K) :
    (m.delete k).get? k = none := by
  induction m with
  | nil => simp [GoMap.delete, GoMap.get?]
  | cons e rest ih =>
    obtain ⟨k', v'⟩ := e
    by_cases h : k' = k
    · simp [GoMap.delete, h, ih]
    · simp [GoMap.delete, GoMap.get?, h, ih]

theorem GoMap.get?_delete_ne {K V : Type} [DecidableEq K] (m : GoMap K V) (k j : K)
    (h : k ≠ j) : (m.delete k).get? j = m.get? j := by
  induction m with
  | nil => simp [GoMap.delete, GoMap.get?]
  | cons e rest ih =>
    obtain ⟨k', v'⟩ := e
    by_cases hk : k' = k
    · subst hk
      simp [GoMap.delete, GoMap.get?, h, ih]
    · by_cases hj : k' = j
      · subst hj
        simp [GoMap.delete, GoMap.get?, hk]
      · simp [GoMap.delete, GoMap.get?, hk, hj, ih]

/-! ## TestResults.Set -/

/-- C1: what `Set` stores under `name`. The outcome code and the explanation
are the arguments `code` and `text`, but the traffic mapping receives `text`
too: at the input shown the stored traffic is the explanation and differs from
the traffic that was passed, and `Print` shows the explanation where the
transcript of the failure should be. -/
theorem TestResults_Set_traffic_is_text :
    (∀ (tr : TestResults) (name : String) (code : TestReturn) (text traffic : String),
      (tr.Set name code text traffic).resultCode.get? name = some code ∧
      (tr.Set name code text traffic).resultText.get? name = some text ∧
      (tr.Set name code text traffic).resultTraffic.get? name = some text) ∧
    (NewTestResults.Set "SASL-Login-PLAIN" .Failure "Could not get reply line: EOF"
        " -> CAP LS 302\n").resultTraffic.get? "SASL-Login-PLAIN"
      = some "Could not get reply line: EOF" ∧
    (NewTestResults.Set "SASL-Login-PLAIN" .Failure "Could not get reply line: EOF"
        " -> CAP LS 302\n").resultTraffic.get? "SASL-Login-PLAIN"
      ≠ some " -> CAP LS 302\n" ∧
    (NewTestResults.Set "SASL-Login-PLAIN" .Failure "Could not get reply line: EOF"
        " -> CAP LS 302\n").Print "SASL-Login-PLAIN"
      = ["SASL-Login-PLAIN - Failed", "   Could not get reply line: EOF", "---",
         "Could not get reply line: EOF", "---"] := by
  refine ⟨fun tr name code text traffic => ⟨?_, ?_, ?_⟩, by decide, by decide, by decide⟩ <;>
    simp [TestResults.Set, GoMap.get?_set_self]

/-! ## Socket.Disconnect -/

/-- C2: `Disconnect` on a connected socket changes nothing: the socket made by
`MakeSocket` (and the one `ConnectSocket` allocates, which is the same value)
still reports `Connected() = true` after it, the next `GetLine` reads the
pending line from the stream and the next `SendLine` writes to it, both with a
nil error. -/
theorem Disconnect_leaves_socket_connected :
    (∀ conn : NetConn, (MakeSocket conn).Disconnect = MakeSocket conn) ∧
    (ConnectSocket "irc.example:6667" false
        (World.init [.ok (streamOf ["PING :x\r\n"])] [])).2.sockets 0
      = MakeSocket (streamOf ["PING :x\r\n"]) ∧
    (MakeSocket (streamOf ["PING :x\r\n"])).Disconnect.Connected = true ∧
    (MakeSocket (streamOf ["PING :x\r\n"])).Disconnect.GetLine
      = (("PING :x", none), MakeSocket (streamOf [])) ∧
    (MakeSocket (streamOf ["PING :x\r\n"])).Disconnect.SendLine "QUIT"
      = (none, MakeSocket { pending := ["PING :x\r\n"], written := "QUIT\r\n",
                            closed := false }) := by
  refine ⟨fun conn => by simp [MakeSocket, Socket.Disconnect], by decide, by decide, by decide,
    by decide⟩

/-! ## Connection.SendMessage and the traffic log -/

/-- C3: `Connection.SendLine` appends the outbound entry of its line to the
traffic log, but `Connection.SendMessage` (and `SendSimpleMessage`, which calls
it) hands the message to the socket and never touches the log. After
`SendSimpleMessage("NICK", "tester")` on a fresh connection the line is on the
wire and `Traffic()` is still empty, whereas `SendLine` of the same line logs
the entry. -/
theorem SendMessage_leaves_traffic_unchanged :
    (∀ (c : Nat) (line : String) (w : World),
      Connection.Traffic (Connection.SendLine c line w).2 c
        = Connection.Traffic w c ++ " -> " ++ line ++ "\n") ∧
    (∀ (L : Libs) (c : Nat) (tags : Tags) (pfx command : String) (params : List String)
        (w : World),
      Connection.Traffic (Connection.SendMessage L c tags pfx command params w).2 c
        = Connection.Traffic w c) ∧
    Connection.Traffic
        (Connection.SendSimpleMessage exampleLibs 0 "NICK" ["tester"] (oneConnWorld [])).2 0
      = "" ∧
    ((Connection.SendSimpleMessage exampleLibs 0 "NICK" ["tester"]
        (oneConnWorld [])).2.sockets 0).connection.written = "NICK tester\r\n" ∧
    Connection.Traffic (Connection.SendLine 0 "NICK tester" (oneConnWorld [])).2 0
      = " -> NICK tester\n" := by
  refine ⟨fun c line w => ?_, fun L c tags pfx command params w => rfl, by decide, by decide,
    by decide⟩
  unfold Connection.Traffic Connection.SendLine
  dsimp only
  rw [Function.update_same]

/-! ## The negotiation step on a three-parameter continuation line -/

/-- C10: on the parsed line `CAP * LS *` (three parameters, the third the
sentinel) the negotiation step indexes `msg.Params[3]` and panics, and so does
`main` when the server sends that line. -/
theorem capStep_three_params_panics :
    (∀ (c : Nat) (caps : CapSet) (w : World),
      capStep exampleLibs c ⟨"CAP", ["*", "LS", "*"]⟩ caps w
        = .error (.panic "runtime error: index out of range [3]")) ∧
    abortOf (main exampleLibs (AllTests exampleLibs) exampleConfig
        (World.init [.ok (streamOf ["CAP * LS *\r\n"])] []))
      = some (.panic "runtime error: index out of range [3]") := by
  refine ⟨fun c caps w => rfl, by decide⟩

/-! ## Required capabilities are not consulted -/

theorem premark_withoutRequiredCaps (all : TestGroupCollection) (tr : TestResults) :
    premark (all.map TestGroup.withoutRequiredCaps) tr = premark all tr := by
  unfold premark
  induction all generalizing tr with
  | nil => rfl
  | cons TG rest ih =>
    rw [List.map_cons, List.foldl_cons, List.foldl_cons, ih]
    congr 1
    unfold TestGroup.withoutRequiredCaps
    dsimp only
    rw [List.foldl_map]
    rfl

theorem runGroup_withoutRequiredCaps (TG : TestGroup) (tests : List Test) (st : RunState) :
    runGroup TG.withoutRequiredCaps (tests.map Test.withoutRequiredCaps) st
      = runGroup TG tests st := by
  induction tests generalizing st with
  | nil => rfl
  | cons T rest ih =>
    rw [List.map_cons, runGroup, runGroup]
    have h : runTest TG.withoutRequiredCaps T.withoutRequiredCaps st = runTest TG T st := rfl
    rw [h]
    cases runTest TG T st with
    | error a => rfl
    | ok st1 => exact ih st1

theorem runAll_withoutRequiredCaps (all : TestGroupCollection) (st : RunState) :
    runAll (all.map TestGroup.withoutRequiredCaps) st = runAll all st := by
  induction all generalizing st with
  | nil => rfl
  | cons TG rest ih =>
    rw [List.map_cons, runAll, runAll]
    have h : runGroup TG.withoutRequiredCaps TG.withoutRequiredCaps.Tests st
        = runGroup TG TG.Tests st := runGroup_withoutRequiredCaps TG TG.Tests st
    rw [h]
    cases runGroup TG TG.Tests st with
    | error a => rfl
    | ok st1 => exact ih st1

theorem main_withoutRequiredCaps (L : Libs) (all : TestGroupCollection) (config : Config)
    (w : World) :
    main L (all.map TestGroup.withoutRequiredCaps) config w = main L all config w := by
  unfold main
  dsimp only
  rw [premark_withoutRequiredCaps]
  cases discoverCaps L
      { Config := config, Pool := NewConnectionPool, Results := premark all NewTestResults } w with
  | error a => rfl
  | ok r => exact runAll_withoutRequiredCaps all _

/-- C9: `main` never reads `RequiredCaps`: emptying the list of every test
leaves the whole run unchanged. The test Login-PLAIN requires the capability
`sasl`; against a server whose negotiation yields only `multi-prefix`, `main`
still calls the handler, which opens a connection, sends the whole SASL
exchange and records Failure. -/
theorem main_runs_handler_without_required_cap :
    (∀ (L : Libs) (all : TestGroupCollection) (config : Config) (w : World),
      main L (all.map TestGroup.withoutRequiredCaps) config w = main L all config w) ∧
    ((saslLoginPlainTest exampleLibs).RequiredCaps = ["sasl"]) ∧
    ((discoverCaps exampleLibs exampleRunManager noSaslWorld).toOption.map
        (fun r => r.1.supportedCaps)) = some [("multi-prefix", true)] ∧
    ((main exampleLibs (AllTests exampleLibs) exampleConfig noSaslWorld).toOption.map
        (fun st => (st.rm.Results.resultCode.get? "SASL-Login-PLAIN",
                    st.rm.Results.resultText.get? "SASL-Login-PLAIN",
                    (st.world.sockets 1).connection.written)))
      = some (some .Failure, some "Got unexpected SASL failure or informational numeric",
          "CAP REQ sasl\r\nNICK nick00001\r\nUSER t 0 * SASL-Login-PLAIN\r\nAUTHENTICATE PLAIN\r\nAUTHENTICATE alice\x00alice\x00hunter2\r\nCAP END\r\n") := by
  refine ⟨main_withoutRequiredCaps, rfl, by decide, by decide⟩

/-! ## ConnectionPool.DestroyConnection -/

theorem Socket.Disconnect_connected (s : Socket) : s.Disconnect.connected = s.connected := by
  unfold Socket.Disconnect
  cases h : s.connected <;> simp [h]

/-- C7: for a pool and two distinct connections `c` and `d`, with `d`
registered in use, `DestroyConnection(c)` removes `c` from the registry, keeps
the entry of `d` (present, flag true), and leaves the `Connection` object of
`d`, the connected flag of its socket and its traffic log as they were; when
the two connections have different sockets, the socket of `d` is untouched. -/
theorem DestroyConnection_frame (cp : ConnectionPool) (c d : Nat) (w : World)
    (hcd : c ≠ d) (hd : cp.connections.get? d = some true) :
    (cp.DestroyConnection c w).1.connections.get? c = none ∧
    (cp.DestroyConnection c w).1.connections.get? d = some true ∧
    (cp.DestroyConnection c w).2.conns d = w.conns d ∧
    ((cp.DestroyConnection c w).2.sockets ((cp.DestroyConnection c w).2.conns d).socket).connected
      = (w.sockets (w.conns d).socket).connected ∧
    Connection.Traffic (cp.DestroyConnection c w).2 d = Connection.Traffic w d ∧
    ((w.conns c).socket ≠ (w.conns d).socket →
      (cp.DestroyConnection c w).2.sockets (w.conns d).socket = w.sockets (w.conns d).socket) := by
  refine ⟨?_, ?_, rfl, ?_, rfl, ?_⟩
  · exact GoMap.get?_delete_self _ _
  · simpa [ConnectionPool.DestroyConnection, GoMap.get?_delete_ne _ _ _ hcd] using hd
  · simp only [ConnectionPool.DestroyConnection]
    by_cases hs : (w.conns d).socket = (w.conns c).socket
    · rw [hs, Function.update_same, Socket.Disconnect_connected]
    · rw [Function.update_noteq hs]
  · intro hs
    simp only [ConnectionPool.DestroyConnection]
    rw [Function.update_noteq (Ne.symm hs)]

theorem DestroyConnection_frame_witness :
    (0 : Nat) ≠ 1 ∧ twoConns.1.connections.get? 1 = some true ∧
    (twoConns.1.DestroyConnection 0 twoConns.2).1.connections.get? 0 = none ∧
    (twoConns.1.DestroyConnection 0 twoConns.2).1.connections.get? 1 = some true ∧
    (twoConns.1.DestroyConnection 0 twoConns.2).2.conns 1 = twoConns.2.conns 1 ∧
    ((twoConns.1.DestroyConnection 0 twoConns.2).2.sockets
        ((twoConns.1.DestroyConnection 0 twoConns.2).2.conns 1).socket).connected
      = (twoConns.2.sockets (twoConns.2.conns 1).socket).connected ∧
    Connection.Traffic (twoConns.1.DestroyConnection 0 twoConns.2).2 1
      = Connection.Traffic twoConns.2 1 ∧
    ((twoConns.2.conns 0).socket ≠ (twoConns.2.conns 1).socket →
      (twoConns.1.DestroyConnection 0 twoConns.2).2.sockets (twoConns.2.conns 1).socket
        = twoConns.2.sockets (twoConns.2.conns 1).socket) :=
  ⟨by decide, by decide,
    DestroyConnection_frame twoConns.1 0 1 twoConns.2 (by decide) (by decide)⟩

/-! ## Pre-marking -/

theorem Premarked_Set_marker (tr : TestResults) (id name traffic : String)
    (h : name = id ∨ Premarked tr id) :
    Premarked (tr.Set name .NotApplicable "Test cancelled and not run" traffic) id := by
  by_cases hn : name = id
  · subst hn
    exact ⟨GoMap.get?_set_self _ _ _, GoMap.get?_set_self _ _ _⟩
  · rcases h with h | h
    · exact absurd h hn
    · exact ⟨by simpa [TestResults.Set, GoMap.get?_set_ne _ _ _ _ hn] using h.1,
        by simpa [TestResults.Set, GoMap.get?_set_ne _ _ _ _ hn] using h.2⟩

theorem premark_tests (TG : TestGroup) (id : String) (tests : List Test) (tr : TestResults)
    (h : (∃ T ∈ tests, testId TG T = id) ∨ Premarked tr id) :
    Premarked (tests.foldl (fun tr T =>
      tr.Set (testId TG T) .NotApplicable "Test cancelled and not run" "") tr) id := by
  induction tests generalizing tr with
  | nil =>
    rcases h with ⟨T, hT, _⟩ | h
    · cases hT
    · exact h
  | cons T rest ih =>
    rw [List.foldl_cons]
    apply ih
    rcases h with ⟨T', hT', hid⟩ | h
    · rcases List.mem_cons.mp hT' with heq | hmem
      · subst heq
        exact Or.inr (Premarked_Set_marker _ _ _ _ (Or.inl hid))
      · exact Or.inl ⟨T', hmem, hid⟩
    · exact Or.inr (Premarked_Set_marker _ _ _ _ (Or.inr h))

theorem premark_groups (id : String) (all : TestGroupCollection) (tr : TestResults)
    (h : (∃ TG ∈ all, ∃ T ∈ TG.Tests, testId TG T = id) ∨ Premarked tr id) :
    Premarked (premark all tr) id := by
  unfold premark
  induction all generalizing tr with
  | nil =>
    rcases h with ⟨TG, hTG, _⟩ | h
    · cases hTG
    · exact h
  | cons TG rest ih =>
    rw [List.foldl_cons]
    apply ih
    rcases h with ⟨TG', hTG', hex⟩ | h
    · rcases List.mem_cons.mp hTG' with heq | hmem
      · subst heq
        exact Or.inr (premark_tests _ _ _ _ (Or.inl hex))
      · exact Or.inl ⟨TG', hmem, hex⟩
    · exact Or.inr (premark_tests _ _ _ _ (Or.inr h))

/-! ## The run loop and the record of `Set` calls -/

theorem runTest_log (TG : TestGroup) (T : Test) (st st1 : RunState)
    (h : runTest TG T st = .ok st1) :
    ∃ calls, st1.setLog = st.setLog ++ calls ∧
      st1.rm.Results = calls.foldl SetCall.apply st.rm.Results := by
  unfold runTest at h
  cases hh : T.Handler (testId TG T) st.rm st.world with
  | none => simp [hh] at h
  | some run =>
    simp only [hh, Except.ok.injEq] at h
    subst h
    exact ⟨run.sets, rfl, rfl⟩

theorem runGroup_log (TG : TestGroup) (tests : List Test) (st st1 : RunState)
    (h : runGroup TG tests st = .ok st1) :
    ∃ calls, st1.setLog = st.setLog ++ calls ∧
      st1.rm.Results = calls.foldl SetCall.apply st.rm.Results := by
  induction tests generalizing st with
  | nil =>
    simp only [runGroup, Except.ok.injEq] at h
    subst h
    exact ⟨[], by simp, rfl⟩
  | cons T rest ih =>
    simp only [runGroup] at h
    cases hh : runTest TG T st with
    | error a => simp [hh] at h
    | ok st2 =>
      simp only [hh] at h
      obtain ⟨c1, hl1, hr1⟩ := runTest_log TG T st st2 hh
      obtain ⟨c2, hl2, hr2⟩ := ih st2 h
      exact ⟨c1 ++ c2, by rw [hl2, hl1, List.append_assoc],
        by rw [hr2, hr1, List.foldl_append]⟩

theorem runAll_log (all : TestGroupCollection) (st st1 : RunState)
    (h : runAll all st = .ok st1) :
    ∃ calls, st1.setLog = st.setLog ++ calls ∧
      st1.rm.Results = calls.foldl SetCall.apply st.rm.Results := by
  induction all generalizing st with
  | nil =>
    simp only [runAll, Except.ok.injEq] at h
    subst h
    exact ⟨[], by simp, rfl⟩
  | cons TG rest ih =>
    simp only [runAll] at h
    cases hh : runGroup TG TG.Tests st with
    | error a => simp [hh] at h
    | ok st2 =>
      simp only [hh] at h
      obtain ⟨c1, hl1, hr1⟩ := runGroup_log TG TG.Tests st st2 hh
      obtain ⟨c2, hl2, hr2⟩ := ih st2 h
      exact ⟨c1 ++ c2, by rw [hl2, hl1, List.append_assoc],
        by rw [hr2, hr1, List.foldl_append]⟩

theorem discoverCaps_Results (L : Libs) (rm rm1 : RunManager) (w w1 : World) (caps : CapSet)
    (h : discoverCaps L rm w = .ok (caps, rm1, w1)) : rm1.Results = rm.Results := by
  unfold discoverCaps at h
  split at h
  · simp at h
  · simp only at h
    split at h
    · simp at h
    · simp only [Except.ok.injEq, Prod.mk.injEq] at h
      obtain ⟨_, hrm, _⟩ := h
      subst hrm
      rfl

theorem foldl_apply_other (id : String) (calls : List SetCall) (tr : TestResults)
    (h : ∀ call ∈ calls, call.name ≠ id) :
    (calls.foldl SetCall.apply tr).resultCode.get? id = tr.resultCode.get? id ∧
    (calls.foldl SetCall.apply tr).resultText.get? id = tr.resultText.get? id := by
  induction calls generalizing tr with
  | nil => exact ⟨rfl, rfl⟩
  | cons call rest ih =>
    rw [List.foldl_cons]
    have hrest := ih (SetCall.apply tr call) (fun x hx => h x (List.mem_cons_of_mem _ hx))
    have hne : call.name ≠ id := h call (List.mem_cons_self _ _)
    rw [hrest.1, hrest.2]
    exact ⟨GoMap.get?_set_ne _ _ _ _ hne, GoMap.get?_set_ne _ _ _ _ hne⟩

/-- C6: when `main` completes on a collection of test groups, every registered
test whose composite identifier `group-test` was passed to `Results.Set` by no
handler call of the run still has the pre-run marker: outcome NotApplicable and
explanation "Test cancelled and not run". -/
theorem main_premark_survives (L : Libs) (all : TestGroupCollection) (config : Config)
    (w : World) (st : RunState) (hrun : main L all config w = .ok st)
    (TG : TestGroup) (hTG : TG ∈ all) (T : Test) (hT : T ∈ TG.Tests)
    (hno : ∀ call ∈ st.setLog, call.name ≠ testId TG T) :
    st.rm.Results.resultCode.get? (testId TG T) = some .NotApplicable ∧
    st.rm.Results.resultText.get? (testId TG T) = some "Test cancelled and not run" := by
  unfold main at hrun
  simp only at hrun
  split at hrun
  · simp at hrun
  · rename_i caps rm1 w1 hdisc
    obtain ⟨calls, hlog, hres⟩ := runAll_log all _ st hrun
    simp only [List.nil_append] at hlog
    have hR := discoverCaps_Results L _ rm1 _ w1 caps hdisc
    simp only at hres hR
    rw [hres, hR]
    have hfr := foldl_apply_other (testId TG T) calls (premark all NewTestResults)
      (by rw [← hlog]; exact hno)
    rw [hfr.1, hfr.2]
    exact premark_groups (testId TG T) all NewTestResults (Or.inl ⟨TG, hTG, T, hT, rfl⟩)

theorem main_premark_survives_witness :
    main exampleLibs [silentGroup] exampleConfig noSaslWorld = .ok silentRun ∧
    silentGroup ∈ [silentGroup] ∧ silentTest ∈ silentGroup.Tests ∧
    (∀ call ∈ silentRun.setLog, call.name ≠ testId silentGroup silentTest) ∧
    silentRun.rm.Results.resultCode.get? (testId silentGroup silentTest)
      = some .NotApplicable ∧
    silentRun.rm.Results.resultText.get? (testId silentGroup silentTest)
      = some "Test cancelled and not run" :=
  ⟨rfl, List.mem_cons_self _ _, List.mem_cons_of_mem _ (List.mem_cons_self _ _), by decide,
    main_premark_survives exampleLibs [silentGroup] exampleConfig noSaslWorld silentRun rfl
      silentGroup (List.mem_cons_self _ _) silentTest
      (List.mem_cons_of_mem _ (List.mem_cons_self _ _)) (by decide)⟩

/-! ## Reading a line from a ready connection -/

theorem TrimRight_empty : TrimRight "" "\r\n" = "" := by decide

theorem Socket.GetLine_cons (s : Socket) (chunk : String) (rest : List String)
    (h1 : s.connected = true) (h2 : s.connection.closed = false)
    (h3 : s.connection.pending = chunk :: rest)
    (hnl : chunk.data.getLast? = some (Char.ofNat 10)) :
    s.GetLine = ((TrimRight chunk "\r\n", none),
      { connected := true,
        connection := { pending := rest, written := s.connection.written, closed := false } }) := by
  obtain ⟨⟨p, wr, cl⟩, cn⟩ := s
  simp only at h1 h2 h3
  subst h1 h2 h3
  simp [Socket.GetLine, Socket.Connected, NetConn.ReadBytes, hnl]

theorem Socket.GetLine_nil (s : Socket)
    (h1 : s.connected = true) (h2 : s.connection.closed = false)
    (h3 : s.connection.pending = []) :
    s.GetLine = (("", some .EOF), s) := by
  obtain ⟨⟨p, wr, cl⟩, cn⟩ := s
  simp only at h1 h2 h3
  subst h1 h2 h3
  simp [Socket.GetLine, Socket.Connected, NetConn.ReadBytes, TrimRight_empty]

theorem GetLine_ready_cons (w : World) (c : Nat) (chunk : String) (rest : List String)
    (h : SockReady w c (chunk :: rest)) (hnl : chunk.data.getLast? = some (Char.ofNat 10)) :
    (Connection.GetLine c w).1 = (TrimRight chunk "\r\n", none) ∧
    SockReady (Connection.GetLine c w).2 c rest ∧
    ((Connection.GetLine c w).2.conns c).socket = (w.conns c).socket ∧
    (Connection.GetLine c w).2.nextConn = w.nextConn := by
  obtain ⟨h1, h2, h3⟩ := h
  have hg := Socket.GetLine_cons _ chunk rest h1 h2 h3 hnl
  unfold Connection.GetLine
  simp only [hg]
  refine ⟨trivial, ?_, ?_, trivial⟩
  · unfold SockReady
    dsimp only
    rw [Function.update_same, Function.update_same]
    exact ⟨rfl, rfl, rfl⟩
  · dsimp only
    rw [Function.update_same]

theorem GetLine_ready_nil (w : World) (c : Nat) (h : SockReady w c []) :
    (Connection.GetLine c w).1 = ("", some .EOF) ∧
    SockReady (Connection.GetLine c w).2 c [] ∧
    ((Connection.GetLine c w).2.conns c).socket = (w.conns c).socket ∧
    (Connection.GetLine c w).2.nextConn = w.nextConn := by
  obtain ⟨h1, h2, h3⟩ := h
  have hg := Socket.GetLine_nil _ h1 h2 h3
  unfold Connection.GetLine
  simp only [hg]
  refine ⟨trivial, ?_, trivial, trivial⟩
  unfold SockReady
  dsimp only
  rw [Function.update_same]
  exact ⟨h1, h2, h3⟩
/-! ## The reply loop of the Login-PLAIN handler -/

theorem saslLoop_verdict (L : Libs) (name : String) (c : Nat) (chunks : List String)
    (msgs : List IrcMessage) (hdel : List.Forall₂ (Delivered L) chunks msgs) :
    ∀ (fuel : Nat) (got900 got903 : Bool) (w : World),
      SockReady w c chunks → chunks.length < fuel →
      ∃ traffic w1,
        saslLoop L name c fuel got900 got903 w
          = some (⟨name, (saslVerdict got900 got903 (msgs.map (·.Command))).1,
              (saslVerdict got900 got903 (msgs.map (·.Command))).2.1, traffic⟩, true, w1) ∧
        SockReady w1 c (chunks.drop (saslVerdict got900 got903 (msgs.map (·.Command))).2.2) ∧
        (w1.conns c).socket = (w.conns c).socket := by
  induction hdel with
  | nil =>
    intro fuel got900 got903 w hready hfuel
    obtain ⟨f, rfl⟩ : ∃ f, fuel = f + 1 := ⟨fuel - 1, by simp at hfuel; omega⟩
    obtain ⟨hr, hready1, hsock, _⟩ := GetLine_ready_nil w c hready
    have e2 : (Connection.GetLine c w).1.2 = some .EOF := by rw [hr]
    refine ⟨Connection.Traffic (Connection.GetLine c w).2 c, (Connection.GetLine c w).2, ?_, ?_,
      hsock⟩
    · rw [saslLoop]
      simp only [e2]
      rfl
    · simpa using hready1
  | @cons chunk msg chunks msgs hd _ ih =>
    intro fuel got900 got903 w hready hfuel
    obtain ⟨f, rfl⟩ : ∃ f, fuel = f + 1 := ⟨fuel - 1, by simp at hfuel; omega⟩
    obtain ⟨hr, hready1, hsock, _⟩ := GetLine_ready_cons w c chunk chunks hready hd.1
    have e1 : (Connection.GetLine c w).1.1 = TrimRight chunk "\r\n" := by rw [hr]
    have e2 : (Connection.GetLine c w).1.2 = none := by rw [hr]
    have hf : chunks.length < f := by simp at hfuel; omega
    rw [saslLoop]
    simp only [e1, e2, hd.2, List.map_cons, saslVerdict]
    by_cases h001 : msg.Command = "001"
    · simp only [if_pos h001]
      by_cases hg : (got900 && got903) = true
      · simp only [if_pos hg]
        exact ⟨_, _, rfl, by simpa using hready1, hsock⟩
      · simp only [if_neg hg]
        exact ⟨_, _, rfl, by simpa using hready1, hsock⟩
    · simp only [if_neg h001]
      by_cases h903 : msg.Command = "903" ∧ (!(if msg.Command = "900" then true else got900)) = true
      · simp only [if_pos h903]
        exact ⟨_, _, rfl, by simpa using hready1, hsock⟩
      · simp only [if_neg h903]
        by_cases hfail : msg.Command ∈ saslFailureNumerics
        · simp only [if_pos hfail]
          exact ⟨_, _, rfl, by simpa using hready1, hsock⟩
        · simp only [if_neg hfail]
          obtain ⟨traffic, w1, hl, hr1, hs1⟩ := ih f _ _ _ hready1 hf
          exact ⟨traffic, w1, hl, by simpa using hr1, hs1.trans hsock⟩
/-! ## The verdict of the reply loop, as a function of the commands -/

theorem takeWhile_not900_cons_900 (pre : List String) :
    ("900" :: pre).takeWhile (fun x => decide (x ≠ "900")) = [] := by
  simp [List.takeWhile_cons]

theorem takeWhile_not900_cons_other (cmd : String) (pre : List String) (h : cmd ≠ "900") :
    (cmd :: pre).takeWhile (fun x => decide (x ≠ "900"))
      = cmd :: pre.takeWhile (fun x => decide (x ≠ "900")) := by
  simp [List.takeWhile_cons, h]

theorem saslVerdict_skip (pre rest : List String) :
    ∀ (got900 got903 : Bool),
      "001" ∉ pre → (∀ x ∈ pre, x ∉ saslFailureNumerics) →
      (got900 = true ∨ "903" ∉ pre.takeWhile (fun x => decide (x ≠ "900"))) →
      saslVerdict got900 got903 (pre ++ rest)
        = ((saslVerdict (got900 || decide ("900" ∈ pre)) (got903 || decide ("903" ∈ pre)) rest).1,
           (saslVerdict (got900 || decide ("900" ∈ pre)) (got903 || decide ("903" ∈ pre)) rest).2.1,
           (saslVerdict (got900 || decide ("900" ∈ pre)) (got903 || decide ("903" ∈ pre)) rest).2.2
             + pre.length) := by
  induction pre with
  | nil => intro got900 got903 _ _ _; simp
  | cons cmd pre ih =>
    intro got900 got903 h001 hfail h903
    have hc001 : cmd ≠ "001" := fun h => h001 (by simp [h])
    have hp001 : "001" ∉ pre := fun h => h001 (List.mem_cons_of_mem _ h)
    have hcfail : cmd ∉ saslFailureNumerics := hfail cmd (List.mem_cons_self _ _)
    have hpfail : ∀ x ∈ pre, x ∉ saslFailureNumerics :=
      fun x hx => hfail x (List.mem_cons_of_mem _ hx)
    rw [List.cons_append, saslVerdict]
    simp only [if_neg hc001, if_neg hcfail]
    by_cases h900 : cmd = "900"
    · subst h900
      have hne : ¬ ("900" = "903" ∧ (!(if "900" = "900" then true else got900)) = true) := by
        simp
      rw [if_neg hne]
      have := ih (if "900" = "900" then true else got900)
        (if "900" = "903" then true else got903) hp001 hpfail (Or.inl (by simp))
      rw [this]
      simp only [List.length_cons, List.mem_cons, true_or, decide_True, Bool.or_true, if_true,
        Bool.true_or, if_neg (show ¬ ("900" = "903") by decide),
        show ("903" = "900") = False from by decide, false_or]
      simp only [Prod.mk.injEq, true_and]
      omega
    · by_cases hc903 : cmd = "903"
      · subst hc903
        have hg : got900 = true := by
          rcases h903 with h | h
          · exact h
          · rw [takeWhile_not900_cons_other _ _ (by decide)] at h
            exact absurd (List.mem_cons_self _ _) h
        subst hg
        have hne : ¬ ("903" = "903" ∧ (!(if "903" = "900" then true else true)) = true) := by
          simp
        rw [if_neg hne]
        have := ih (if "903" = "900" then true else true)
          (if "903" = "903" then true else got903) hp001 hpfail (Or.inl (by simp))
        rw [this]
        simp only [List.length_cons, List.mem_cons, true_or, decide_True, Bool.or_true, if_true,
          Bool.true_or, if_neg (show ¬ ("903" = "900") by decide),
          show ("900" = "903") = False from by decide, false_or]
        simp only [Prod.mk.injEq, true_and]
        omega
      · have hne : ¬ (cmd = "903" ∧ (!(if cmd = "900" then true else got900)) = true) :=
          fun h => hc903 h.1
        rw [if_neg hne]
        have h3 : got900 = true ∨ "903" ∉ pre.takeWhile (fun x => decide (x ≠ "900")) := by
          rcases h903 with h | h
          · exact Or.inl h
          · refine Or.inr (fun hm => h ?_)
            rw [takeWhile_not900_cons_other _ _ h900]
            exact List.mem_cons_of_mem _ hm
        have := ih (if cmd = "900" then true else got900)
          (if cmd = "903" then true else got903) hp001 hpfail (by simpa [h900] using h3)
        rw [this]
        have e9 : ("900" = cmd) = False := by simp [eq_comm, h900]
        have e3 : ("903" = cmd) = False := by simp [eq_comm, hc903]
        simp only [List.length_cons, List.mem_cons, e9, e3, false_or, if_neg h900, if_neg hc903]
        simp only [Prod.mk.injEq, true_and]
        omega

theorem saslVerdict_success (cmds : List String) :
    ∀ (got900 got903 : Bool), (saslVerdict got900 got903 cmds).1 = .Success →
      ∃ pre post, cmds = pre ++ "001" :: post ∧ "001" ∉ pre ∧
        (∀ x ∈ pre, x ∉ saslFailureNumerics) ∧
        (got900 = true ∨ "903" ∉ pre.takeWhile (fun x => decide (x ≠ "900"))) ∧
        (got900 = true ∨ "900" ∈ pre) ∧ (got903 = true ∨ "903" ∈ pre) := by
  induction cmds with
  | nil => intro got900 got903 h; simp [saslVerdict] at h
  | cons cmd rest ih =>
    intro got900 got903 h
    rw [saslVerdict] at h
    by_cases hc001 : cmd = "001"
    · rw [if_pos hc001] at h
      by_cases hg : (got900 && got903) = true
      · simp only [Bool.and_eq_true] at hg
        exact ⟨[], rest, by simp [hc001], by simp, by simp, Or.inl hg.1, Or.inl hg.1,
          Or.inl hg.2⟩
      · rw [if_neg hg] at h
        cases h
    · rw [if_neg hc001] at h
      by_cases h903 : cmd = "903" ∧ (!(if cmd = "900" then true else got900)) = true
      · rw [if_pos h903] at h
        cases h
      · rw [if_neg h903] at h
        by_cases hfail : cmd ∈ saslFailureNumerics
        · rw [if_pos hfail] at h
          cases h
        · rw [if_neg hfail] at h
          obtain ⟨pre, post, hcm, hp001, hpfail, hp903, hp900, hq903⟩ := ih _ _ h
          refine ⟨cmd :: pre, post, by simp [hcm], ?_, ?_, ?_, ?_, ?_⟩
          · simp [hp001, Ne.symm hc001]
          · intro x hx
            rcases List.mem_cons.mp hx with rfl | hx
            · exact hfail
            · exact hpfail x hx
          · by_cases h900 : cmd = "900"
            · right
              rw [h900, takeWhile_not900_cons_900]
              exact List.not_mem_nil _
            · by_cases hg : got900 = true
              · exact Or.inl hg
              · right
                have hc903 : cmd ≠ "903" := fun hc => h903 ⟨hc, by simp [h900, hg]⟩
                have hp : "903" ∉ pre.takeWhile (fun x => decide (x ≠ "900")) := by
                  rcases hp903 with hh | hh
                  · simp [h900, hg] at hh
                  · exact hh
                rw [takeWhile_not900_cons_other _ _ h900]
                intro hm
                rcases List.mem_cons.mp hm with hh | hh
                · exact hc903 hh.symm
                · exact hp hh
          · by_cases h900 : cmd = "900"
            · right
              simp [h900]
            · rcases hp900 with hh | hh
              · left
                simpa [h900] using hh
              · exact Or.inr (List.mem_cons_of_mem _ hh)
          · by_cases hc903 : cmd = "903"
            · right
              simp [hc903]
            · rcases hq903 with hh | hh
              · left
                simpa [hc903] using hh
              · exact Or.inr (List.mem_cons_of_mem _ hh)

theorem saslVerdict_success_iff (cmds : List String) :
    (saslVerdict false false cmds).1 = .Success ↔ AmendedSuccess cmds := by
  constructor
  · intro h
    obtain ⟨pre, post, hcm, h1, h2, h3, h4, h5⟩ := saslVerdict_success cmds false false h
    exact ⟨pre, post, hcm, ⟨h1, h2, by simpa using h3⟩, by simpa using h4, by simpa using h5⟩
  · rintro ⟨pre, post, rfl, ⟨h1, h2, h3⟩, h4, h5⟩
    rw [saslVerdict_skip pre _ false false h1 h2 (Or.inr h3)]
    simp [saslVerdict, h4, h5]

theorem saslVerdict_welcome (pre post : List String) (h : NoTerminal pre)
    (hnot : ¬ ("900" ∈ pre ∧ "903" ∈ pre)) :
    (saslVerdict false false (pre ++ "001" :: post)).1 = .Failure ∧
    (saslVerdict false false (pre ++ "001" :: post)).2.1
      = "RPL_WELCOME (001) encountered before SASL success numerics" := by
  rw [saslVerdict_skip pre _ false false h.1 h.2.1 (Or.inr h.2.2)]
  have hg : ¬ ((false || decide ("900" ∈ pre)) && (false || decide ("903" ∈ pre))) = true := by
    simpa using hnot
  simp only [saslVerdict, if_true, if_neg hg]
  exact ⟨trivial, trivial⟩

theorem saslVerdict_904 (pre post : List String) (h : NoTerminal pre) :
    saslVerdict false false (pre ++ "904" :: post)
      = (.Failure, "Got unexpected SASL failure or informational numeric", pre.length + 1) := by
  rw [saslVerdict_skip pre _ false false h.1 h.2.1 (Or.inr h.2.2)]
  simp [saslVerdict, saslFailureNumerics, Nat.add_comm]
/-! ## Sending does not disturb the reading side -/

theorem Socket.SendLine_keeps (s : Socket) (line : String) :
    (s.SendLine line).2.connected = s.connected ∧
    (s.SendLine line).2.connection.closed = s.connection.closed ∧
    (s.SendLine line).2.connection.pending = s.connection.pending := by
  unfold Socket.SendLine NetConn.WriteFlush
  split
  · exact ⟨rfl, rfl, rfl⟩
  · split <;> exact ⟨rfl, rfl, rfl⟩

theorem Socket.SendMessage_keeps (L : Libs) (s : Socket) (tags : Tags) (pfx command : String)
    (params : List String) :
    (s.SendMessage L tags pfx command params).2.connected = s.connected ∧
    (s.SendMessage L tags pfx command params).2.connection.closed = s.connection.closed ∧
    (s.SendMessage L tags pfx command params).2.connection.pending = s.connection.pending := by
  unfold Socket.SendMessage
  split
  · exact ⟨rfl, rfl, rfl⟩
  · exact Socket.SendLine_keeps s _

theorem SendSimpleMessage_ready (L : Libs) (c : Nat) (command : String) (params : List String)
    (w : World) (chunks : List String) (h : SockReady w c chunks) :
    SockReady (Connection.SendSimpleMessage L c command params w).2 c chunks ∧
    (Connection.SendSimpleMessage L c command params w).2.conns = w.conns := by
  obtain ⟨h1, h2, h3⟩ := h
  obtain ⟨k1, k2, k3⟩ :=
    Socket.SendMessage_keeps L (w.sockets (w.conns c).socket) none "" command params
  refine ⟨?_, rfl⟩
  unfold SockReady Connection.SendSimpleMessage Connection.SendMessage
  dsimp only
  rw [Function.update_same]
  exact ⟨k1.trans h1, k2.trans h2, k3.trans h3⟩

theorem NewNick_ready (c : Nat) (w : World) (chunks : List String) (h : SockReady w c chunks) :
    SockReady (RunManager.NewNick w).2 c chunks ∧ (RunManager.NewNick w).2.conns = w.conns := by
  unfold RunManager.NewNick
  split
  · exact ⟨h, rfl⟩
  · exact ⟨h, rfl⟩

theorem saslSendAll_ready (L : Libs) (name : String) (acc : AccountConfig) (c : Nat) (w : World)
    (chunks : List String) (h : SockReady w c chunks) :
    SockReady (saslSendAll L name acc c w) c chunks ∧
    (saslSendAll L name acc c w).conns = w.conns := by
  unfold saslSendAll
  dsimp only
  have a1 := SendSimpleMessage_ready L c "CAP" ["REQ", "sasl"] w chunks h
  have a2 := NewNick_ready c _ chunks a1.1
  have a3 := SendSimpleMessage_ready L c "NICK" [(RunManager.NewNick
    (Connection.SendSimpleMessage L c "CAP" ["REQ", "sasl"] w).2).1] _ chunks a2.1
  have a4 := SendSimpleMessage_ready L c "USER" ["t", "0", "*", name] _ chunks a3.1
  have a5 := SendSimpleMessage_ready L c "AUTHENTICATE" ["PLAIN"] _ chunks a4.1
  have a6 := SendSimpleMessage_ready L c "AUTHENTICATE"
    [L.EncodeToString (acc.Username ++ "\x00" ++ acc.Username ++ "\x00" ++ acc.Password)]
    _ chunks a5.1
  have a7 := SendSimpleMessage_ready L c "CAP END" [] _ chunks a6.1
  exact ⟨a7.1, by rw [a7.2, a6.2, a5.2, a4.2, a3.2, a2.2, a1.2]⟩

theorem NewConnection_ok (cp : ConnectionPool) (sc : ServerConfig) (w : World) (conn : NetConn)
    (rest : List (Except GoError NetConn)) (hdial : w.dials = .ok conn :: rest) :
    ∃ w1, cp.NewConnection sc w
        = (.ok w.nextConn, { connections := cp.connections.set w.nextConn true }, w1) ∧
      w1.conns w.nextConn = { nick := "", socket := w.nextSocket, traffic := "" } ∧
      w1.sockets w.nextSocket = { connected := true, connection := conn } := by
  unfold ConnectionPool.NewConnection ConnectSocket
  rw [hdial]
  dsimp only
  refine ⟨_, rfl, ?_, ?_⟩
  · dsimp only
    rw [Function.update_same]
  · dsimp only
    rw [Function.update_same]

theorem NewConnection_ready (cp : ConnectionPool) (sc : ServerConfig) (w : World) (conn : NetConn)
    (rest : List (Except GoError NetConn)) (hdial : w.dials = .ok conn :: rest)
    (hopen : conn.closed = false) :
    ∃ w1, cp.NewConnection sc w
        = (.ok w.nextConn, { connections := cp.connections.set w.nextConn true }, w1) ∧
      SockReady w1 w.nextConn conn.pending ∧ (w1.conns w.nextConn).traffic = "" := by
  obtain ⟨w1, h1, h2, h3⟩ := NewConnection_ok cp sc w conn rest hdial
  refine ⟨w1, h1, ?_, by rw [h2]⟩
  unfold SockReady
  rw [h2]
  dsimp only
  rw [h3]
  exact ⟨rfl, hopen, rfl⟩

theorem DestroyConnection_pending (cp : ConnectionPool) (c : Nat) (w : World)
    (chunks : List String) (h : SockReady w c chunks) :
    pendingOf (cp.DestroyConnection c w).2 c = chunks := by
  obtain ⟨h1, h2, h3⟩ := h
  unfold pendingOf ConnectionPool.DestroyConnection
  dsimp only
  rw [Function.update_same]
  unfold Socket.Disconnect
  simp [h1, h3]

/-! ## The Login-PLAIN handler on a stream of parsed replies -/

theorem saslHandler_verdict (L : Libs) (name : String) (rm : RunManager) (w : World)
    (acc : AccountConfig) (accs : List AccountConfig) (conn : NetConn)
    (rest : List (Except GoError NetConn)) (msgs : List IrcMessage)
    (hacc : rm.Config.Accounts = acc :: accs)
    (hdial : w.dials = .ok conn :: rest) (hopen : conn.closed = false)
    (hmsgs : List.Forall₂ (Delivered L) conn.pending msgs) :
    ∃ run traffic, saslLoginPlainHandler L name rm w = some run ∧
      run.sets = [⟨name, (saslVerdict false false (msgs.map (·.Command))).1,
        (saslVerdict false false (msgs.map (·.Command))).2.1, traffic⟩] ∧
      run.ret = true ∧
      pendingOf run.world w.nextConn
        = conn.pending.drop (saslVerdict false false (msgs.map (·.Command))).2.2 := by
  obtain ⟨w1, hnew, hready1, _⟩ :=
    NewConnection_ready rm.Pool rm.Config.Server w conn rest hdial hopen
  obtain ⟨hready2, _⟩ := saslSendAll_ready L name acc w.nextConn w1 conn.pending hready1
  have hp : pendingOf (saslSendAll L name acc w.nextConn w1) w.nextConn = conn.pending :=
    hready2.2.2
  obtain ⟨traffic, w3, hloop, hready3, _⟩ :=
    saslLoop_verdict L name w.nextConn conn.pending msgs hmsgs (conn.pending.length + 1)
      false false _ hready2 (Nat.lt_succ_self _)
  unfold saslLoginPlainHandler
  rw [hacc]
  dsimp only
  rw [hnew]
  dsimp only
  rw [hp, hloop]
  dsimp only
  exact ⟨_, traffic, rfl, rfl, rfl,
    DestroyConnection_pending ⟨rm.Pool.connections.set w.nextConn true⟩ _ _ _ hready3⟩
/-- C5 (as amended): with an account configured and the connection established,
on a stream of complete lines that all parse, the Login-PLAIN handler returns
after one call of `Set`, and the recorded outcome is decided by the first
terminal event, where a 903 that no 900 precedes is terminal too. The outcome
is Success exactly when the first 001 comes after a 900 and a 903 with no 901,
902, 904 to 908 and no 903-before-900 in front of it; a 001 that is the first
terminal event without both 900 and 903 before it records Failure with the
RPL_WELCOME explanation; a 904 that is the first terminal event records
Failure and the lines after it stay unread. -/
theorem saslHandler_outcome (L : Libs) (name : String) (rm : RunManager) (w : World)
    (acc : AccountConfig) (accs : List AccountConfig) (conn : NetConn)
    (rest : List (Except GoError NetConn)) (msgs : List IrcMessage)
    (hacc : rm.Config.Accounts = acc :: accs)
    (hdial : w.dials = .ok conn :: rest) (hopen : conn.closed = false)
    (hmsgs : List.Forall₂ (Delivered L) conn.pending msgs) :
    ∃ run call, saslLoginPlainHandler L name rm w = some run ∧
      run.sets = [call] ∧ run.ret = true ∧ call.name = name ∧
      (call.code = .Success ↔ AmendedSuccess (msgs.map (·.Command))) ∧
      (∀ pre post, msgs.map (·.Command) = pre ++ "001" :: post → NoTerminal pre →
        ¬ ("900" ∈ pre ∧ "903" ∈ pre) →
        call.code = .Failure ∧
        call.text = "RPL_WELCOME (001) encountered before SASL success numerics") ∧
      (∀ pre post, msgs.map (·.Command) = pre ++ "904" :: post → NoTerminal pre →
        call.code = .Failure ∧
        call.text = "Got unexpected SASL failure or informational numeric" ∧
        pendingOf run.world w.nextConn = conn.pending.drop (pre.length + 1)) := by
  obtain ⟨run, traffic, hrun, hsets, hret, hpend⟩ :=
    saslHandler_verdict L name rm w acc accs conn rest msgs hacc hdial hopen hmsgs
  refine ⟨run, _, hrun, hsets, hret, rfl, ?_, ?_, ?_⟩
  · exact saslVerdict_success_iff _
  · intro pre post hcm hnt hnot
    dsimp only
    rw [hcm]
    exact saslVerdict_welcome pre post hnt hnot
  · intro pre post hcm hnt
    dsimp only
    rw [hpend, hcm, saslVerdict_904 pre post hnt]
    exact ⟨rfl, rfl, rfl⟩

theorem saslHandler_outcome_witness :
    exampleRunManager.Config.Accounts = { Username := "alice", Password := "hunter2" } :: [] ∧
    (World.init [.ok saslOkStream] ["nick00001"]).dials = .ok saslOkStream :: [] ∧
    saslOkStream.closed = false ∧
    List.Forall₂ (Delivered exampleLibs) saslOkStream.pending
      [⟨"900", []⟩, ⟨"903", []⟩, ⟨"001", []⟩] ∧
    ∃ run call, saslLoginPlainHandler exampleLibs "SASL-Login-PLAIN" exampleRunManager
          (World.init [.ok saslOkStream] ["nick00001"]) = some run ∧
      run.sets = [call] ∧ run.ret = true ∧ call.name = "SASL-Login-PLAIN" ∧
      (call.code = .Success ↔
        AmendedSuccess (([⟨"900", []⟩, ⟨"903", []⟩, ⟨"001", []⟩] : List IrcMessage).map
          (·.Command))) ∧
      (∀ pre post,
        ([⟨"900", []⟩, ⟨"903", []⟩, ⟨"001", []⟩] : List IrcMessage).map (·.Command)
          = pre ++ "001" :: post → NoTerminal pre →
        ¬ ("900" ∈ pre ∧ "903" ∈ pre) →
        call.code = .Failure ∧
        call.text = "RPL_WELCOME (001) encountered before SASL success numerics") ∧
      (∀ pre post,
        ([⟨"900", []⟩, ⟨"903", []⟩, ⟨"001", []⟩] : List IrcMessage).map (·.Command)
          = pre ++ "904" :: post → NoTerminal pre →
        call.code = .Failure ∧
        call.text = "Got unexpected SASL failure or informational numeric" ∧
        pendingOf run.world (World.init [.ok saslOkStream] ["nick00001"]).nextConn
          = saslOkStream.pending.drop (pre.length + 1)) :=
  ⟨rfl, rfl, rfl,
    .cons ⟨by decide, rfl⟩ (.cons ⟨by decide, rfl⟩
      (.cons ⟨by decide, rfl⟩ .nil)),
    saslHandler_outcome exampleLibs "SASL-Login-PLAIN" exampleRunManager
      (World.init [.ok saslOkStream] ["nick00001"]) _ [] saslOkStream [] _ rfl rfl rfl
      (.cons ⟨by decide, rfl⟩ (.cons ⟨by decide, rfl⟩
        (.cons ⟨by decide, rfl⟩ .nil)))⟩

/-- C5 (as stated) fails: on the replies 903, 900, 903, 001 a 001 arrives after
a 900 and a later 903 with none of 901, 902, 904 to 908 before it, so the claim
gives Success; the handler records Failure on the first 903, which no 900
precedes. -/
theorem saslHandler_early_903_counterexample :
    early903Stream.pending.map
        (fun chunk => (exampleLibs.ParseLine (TrimRight chunk "\r\n")).toOption.map (·.Command))
      = [some "903", some "900", some "903", some "001"] ∧
    ClaimedSuccess ["903", "900", "903", "001"] ∧
    (saslLoginPlainHandler exampleLibs "SASL-Login-PLAIN" exampleRunManager
        (World.init [.ok early903Stream] ["nick00001"])).map
      (fun run => run.sets.map (fun call => (call.code, call.text)))
      = some [(.Failure,
          "Got RPL_SASLSUCCESS (903) before or without getting RPL_LOGGEDIN (900)")] := by
  refine ⟨by decide, ?_, by decide⟩
  exact ⟨["903", "900", "903"], [], rfl, by decide, by decide, ["903"], [], [], rfl⟩

/-! ## Splitting a token at its first `=` -/

theorem splitFirst_none (sep : Char) (l : List Char) (h : splitFirst sep l = none) :
    l.takeWhile (fun ch => decide (ch ≠ sep)) = l ∧
    (l.dropWhile (fun ch => decide (ch ≠ sep))).drop 1 = [] := by
  induction l with
  | nil => simp
  | cons ch rest ih =>
    rw [splitFirst] at h
    by_cases hc : ch = sep
    · simp [hc] at h
    · rw [if_neg hc] at h
      cases hs : splitFirst sep rest with
      | none =>
        obtain ⟨i1, i2⟩ := ih hs
        rw [List.takeWhile_cons, List.dropWhile_cons]
        simp only [ne_eq, hc, not_false_eq_true, decide_True, if_true]
        exact ⟨by rw [i1], i2⟩
      | some p => simp [hs] at h

theorem splitFirst_some (sep : Char) (l a b : List Char) (h : splitFirst sep l = some (a, b)) :
    l.takeWhile (fun ch => decide (ch ≠ sep)) = a ∧
    (l.dropWhile (fun ch => decide (ch ≠ sep))).drop 1 = b := by
  induction l generalizing a with
  | nil => simp [splitFirst] at h
  | cons ch rest ih =>
    rw [splitFirst] at h
    by_cases hc : ch = sep
    · rw [if_pos hc] at h
      simp only [Option.some.injEq, Prod.mk.injEq] at h
      obtain ⟨rfl, rfl⟩ := h
      rw [List.takeWhile_cons, List.dropWhile_cons]
      simp [hc]
    · rw [if_neg hc] at h
      cases hs : splitFirst sep rest with
      | none => simp [hs] at h
      | some p =>
        obtain ⟨a1, b1⟩ := p
        simp only [hs, Option.some.injEq, Prod.mk.injEq] at h
        obtain ⟨rfl, rfl⟩ := h
        obtain ⟨i1, i2⟩ := ih a1 hs
        rw [List.takeWhile_cons, List.dropWhile_cons]
        simp only [ne_eq, hc, not_false_eq_true, decide_True, if_true]
        exact ⟨by rw [i1], i2⟩

theorem addCap_eq (caps : CapSet) (tok : String) :
    addCap caps tok
      = { supportedCaps := caps.supportedCaps.set (tokenName tok) true
          capValues := caps.capValues.set (tokenName tok) (tokenValue tok) } := by
  unfold addCap SplitN2 tokenName tokenValue
  cases hs : splitFirst '=' tok.data with
  | none =>
    obtain ⟨h1, h2⟩ := splitFirst_none _ _ hs
    rw [h1, h2]
    rfl
  | some p =>
    obtain ⟨a, b⟩ := p
    obtain ⟨h1, h2⟩ := splitFirst_some _ _ a b hs
    rw [h1, h2]
    rfl

/-! ## Folding tokens into the capability maps -/

theorem GoMap.get?_set {K V : Type} [DecidableEq K] (m : GoMap K V) (k j : K) (v : V) :
    (m.set k v).get? j = if k = j then some v else m.get? j := by
  by_cases h : k = j
  · subst h
    simp [GoMap.get?_set_self]
  · simp [h, GoMap.get?_set_ne _ _ _ _ h]

theorem GoMap.keys_set {K V : Type} [DecidableEq K] (m : GoMap K V) (k : K) (v : V) :
    (m.set k v).keys = if k ∈ m.keys then m.keys else m.keys ++ [k] := by
  induction m with
  | nil => simp [GoMap.set, GoMap.keys]
  | cons e rest ih =>
    obtain ⟨k', v'⟩ := e
    by_cases h : k' = k
    · subst h
      simp [GoMap.set, GoMap.keys]
    · have ih' : List.map Prod.fst (GoMap.set rest k v)
          = if k ∈ List.map Prod.fst rest then List.map Prod.fst rest
            else List.map Prod.fst rest ++ [k] := ih
      simp only [GoMap.set, if_neg h, GoMap.keys, List.map_cons, List.mem_cons,
        Ne.symm h, false_or, ih']
      split <;> simp

theorem foldl_addCap_keys (tokens : List String) (caps : CapSet)
    (heq : caps.supportedCaps.keys = caps.capValues.keys)
    (hnd : caps.supportedCaps.keys.Nodup) :
    (tokens.foldl addCap caps).supportedCaps.keys = (tokens.foldl addCap caps).capValues.keys ∧
    (tokens.foldl addCap caps).supportedCaps.keys.Nodup ∧
    ∀ name, name ∈ (tokens.foldl addCap caps).supportedCaps.keys ↔
      name ∈ caps.supportedCaps.keys ∨ ∃ tok ∈ tokens, tokenName tok = name := by
  induction tokens generalizing caps with
  | nil => exact ⟨heq, hnd, fun name => by simp⟩
  | cons tok rest ih =>
    rw [List.foldl_cons]
    have hk1 : (addCap caps tok).supportedCaps.keys
        = if tokenName tok ∈ caps.supportedCaps.keys then caps.supportedCaps.keys
          else caps.supportedCaps.keys ++ [tokenName tok] := by
      rw [addCap_eq]; exact GoMap.keys_set _ _ _
    have hk2 : (addCap caps tok).capValues.keys
        = if tokenName tok ∈ caps.capValues.keys then caps.capValues.keys
          else caps.capValues.keys ++ [tokenName tok] := by
      rw [addCap_eq]; exact GoMap.keys_set _ _ _
    have heq1 : (addCap caps tok).supportedCaps.keys = (addCap caps tok).capValues.keys := by
      rw [hk1, hk2, heq]
    have hnd1 : (addCap caps tok).supportedCaps.keys.Nodup := by
      rw [hk1]
      split
      · exact hnd
      · rename_i hnotin
        exact List.Nodup.append hnd (List.nodup_singleton _) (by simpa using hnotin)
    obtain ⟨i1, i2, i3⟩ := ih (addCap caps tok) heq1 hnd1
    refine ⟨i1, i2, fun name => ?_⟩
    rw [i3, hk1]
    constructor
    · rintro (h | ⟨t, ht, hn⟩)
      · split at h
        · exact Or.inl h
        · rcases List.mem_append.mp h with h | h
          · exact Or.inl h
          · exact Or.inr ⟨tok, List.mem_cons_self _ _, (List.mem_singleton.mp h).symm⟩
      · exact Or.inr ⟨t, List.mem_cons_of_mem _ ht, hn⟩
    · rintro (h | ⟨t, ht, hn⟩)
      · left
        split
        · exact h
        · exact List.mem_append_left _ h
      · rcases List.mem_cons.mp ht with rfl | ht
        · left
          split
          · rename_i hin; rw [← hn]; exact hin
          · rw [← hn]; exact List.mem_append_right _ (List.mem_singleton_self _)
        · exact Or.inr ⟨t, ht, hn⟩

theorem foldl_addCap_get? (tokens : List String) (caps : CapSet) (name : String) :
    (tokens.foldl addCap caps).supportedCaps.get? name
      = ((tokens.reverse.find? (fun tok => decide (tokenName tok = name))).map
          (fun _ => true)).orElse (fun _ => caps.supportedCaps.get? name) ∧
    (tokens.foldl addCap caps).capValues.get? name
      = ((tokens.reverse.find? (fun tok => decide (tokenName tok = name))).map
          tokenValue).orElse (fun _ => caps.capValues.get? name) := by
  induction tokens using List.reverseRecOn with
  | nil => simp
  | append_singleton rest tok ih =>
    rw [List.foldl_append, List.foldl_cons, List.foldl_nil, addCap_eq, List.reverse_append,
      List.reverse_singleton, List.singleton_append, List.find?_cons]
    dsimp only
    rw [GoMap.get?_set, GoMap.get?_set]
    by_cases h : tokenName tok = name
    · simp [h]
    · simp only [h, if_false, decide_False]
      exact ih
/-! ## Operations on a connection seen through `ConnView` -/

theorem GetLine_view_cons (w : World) (c s : Nat) (t : String) (chunk : String)
    (rest : List String) (wr : String) (h : ConnView w c s t (chunk :: rest) wr)
    (hnl : chunk.data.getLast? = some (Char.ofNat 10)) :
    (Connection.GetLine c w).1 = (TrimRight chunk "\r\n", none) ∧
    ConnView (Connection.GetLine c w).2 c s (t ++ "<-  " ++ TrimRight chunk "\r\n" ++ "\n")
      rest wr := by
  obtain ⟨h1, h2, h3⟩ := h
  have hg : (w.sockets (w.conns c).socket).GetLine
      = ((TrimRight chunk "\r\n", none),
          { connected := true,
            connection := { pending := rest, written := wr, closed := false } }) := by
    rw [h1, Socket.GetLine_cons _ chunk rest (by rw [h3]) (by rw [h3]) (by rw [h3]) hnl, h3]
  unfold Connection.GetLine
  simp only [hg]
  refine ⟨trivial, ?_⟩
  unfold ConnView
  dsimp only
  rw [Function.update_same, h1, Function.update_same, h2]
  exact ⟨rfl, rfl, rfl⟩

theorem GetLine_view_nil (w : World) (c s : Nat) (t wr : String)
    (h : ConnView w c s t [] wr) :
    (Connection.GetLine c w).1 = ("", some .EOF) ∧
    ConnView (Connection.GetLine c w).2 c s t [] wr := by
  obtain ⟨h1, h2, h3⟩ := h
  have hg : (w.sockets (w.conns c).socket).GetLine
      = (("", some .EOF), w.sockets (w.conns c).socket) := by
    rw [h1]
    exact Socket.GetLine_nil _ (by rw [h3]) (by rw [h3]) (by rw [h3])
  unfold Connection.GetLine
  simp only [hg]
  refine ⟨trivial, ?_⟩
  unfold ConnView
  dsimp only
  rw [h1, Function.update_same]
  exact ⟨rfl, h2, h3⟩

theorem SendLine_view (w : World) (c s : Nat) (t : String) (chunks : List String)
    (wr line : String) (h : ConnView w c s t chunks wr) :
    ConnView (Connection.SendLine c line w).2 c s (t ++ " -> " ++ line ++ "\n") chunks
      (wr ++ (line ++ "\r\n")) := by
  obtain ⟨h1, h2, h3⟩ := h
  unfold ConnView Connection.SendLine
  dsimp only
  rw [Function.update_same, h1, Function.update_same, h2, h3]
  exact ⟨rfl, rfl, rfl⟩

theorem DestroyConnection_view (cp : ConnectionPool) (w : World) (c s : Nat) (t : String)
    (chunks : List String) (wr : String) (h : ConnView w c s t chunks wr) :
    ConnView (cp.DestroyConnection c w).2 c s t chunks wr := by
  obtain ⟨h1, h2, h3⟩ := h
  unfold ConnView ConnectionPool.DestroyConnection
  dsimp only
  rw [h1, Function.update_same, h3]
  exact ⟨rfl, h2, rfl⟩

theorem NewConnection_view (cp : ConnectionPool) (sc : ServerConfig) (w : World)
    (conn : NetConn) (rest : List (Except GoError NetConn))
    (hdial : w.dials = .ok conn :: rest) (hopen : conn.closed = false) :
    ∃ w1, cp.NewConnection sc w
        = (.ok w.nextConn, { connections := cp.connections.set w.nextConn true }, w1) ∧
      ConnView w1 w.nextConn w.nextSocket "" conn.pending conn.written := by
  obtain ⟨w1, h1, h2, h3⟩ := NewConnection_ok cp sc w conn rest hdial
  refine ⟨w1, h1, ?_⟩
  unfold ConnView
  rw [h2, h3]
  obtain ⟨p, wr, cl⟩ := conn
  simp only at hopen
  subst hopen
  exact ⟨rfl, rfl, rfl⟩

/-! ## The negotiation step and loop -/

theorem capStep_continuation (L : Libs) (c : Nat) (msg : IrcMessage) (tokens : String)
    (caps : CapSet) (w : World) (h : IsContinuation L msg tokens) :
    capStep L c msg caps w = .ok (addCaps caps tokens, w) := by
  obtain ⟨hcmd, a, b, extra, hp, hls⟩ := h
  unfold capStep
  rw [if_pos hcmd, hp]
  have hg : 2 < (a :: b :: "*" :: tokens :: extra).length ∧
      L.ToUpper ((a :: b :: "*" :: tokens :: extra).getD 1 "") = "LS" :=
    ⟨by simp, by simpa using hls⟩
  rw [if_pos hg, if_pos (by simp)]
  rfl

theorem capStep_terminal (L : Libs) (c : Nat) (msg : IrcMessage) (tokens : String)
    (caps : CapSet) (w : World) (h : IsTerminal L msg tokens) :
    capStep L c msg caps w
      = .ok (addCaps caps tokens, (Connection.SendLine c "QUIT" w).2) := by
  obtain ⟨hcmd, hne, a, b, extra, hp, hls⟩ := h
  unfold capStep
  rw [if_pos hcmd, hp]
  have hg : 2 < (a :: b :: tokens :: extra).length ∧
      L.ToUpper ((a :: b :: tokens :: extra).getD 1 "") = "LS" :=
    ⟨by simp, by simpa using hls⟩
  rw [if_pos hg, if_neg (by simpa using hne)]
  rfl

theorem capLoop_continuations (L : Libs) (c s : Nat) (wr : String) (tail : List String)
    (conts : List (String × IrcMessage × String))
    (hconts : ∀ r ∈ conts, Delivered L r.1 r.2.1 ∧ IsContinuation L r.2.1 r.2.2) :
    ∀ (fuel : Nat) (caps : CapSet) (t : String) (w : World),
      ConnView w c s t (conts.map (·.1) ++ tail) wr →
      ∃ w1, capLoop L c (fuel + conts.length) caps w
          = capLoop L c fuel (conts.foldl (fun caps r => addCaps caps r.2.2) caps) w1 ∧
        ConnView w1 c s (logInbound t (conts.map (·.1))) tail wr := by
  induction conts with
  | nil =>
    intro fuel caps t w hv
    exact ⟨w, rfl, by simpa [logInbound] using hv⟩
  | cons r rest ih =>
    intro fuel caps t w hv
    obtain ⟨hd, hc⟩ := hconts r (List.mem_cons_self _ _)
    have hv0 : ConnView w c s t (r.1 :: (rest.map (·.1) ++ tail)) wr := by
      simpa using hv
    obtain ⟨hr, hv1⟩ := GetLine_view_cons w c s t r.1 _ wr hv0 hd.1
    have e1 : (Connection.GetLine c w).1.1 = TrimRight r.1 "\r\n" := by rw [hr]
    have e2 : (Connection.GetLine c w).1.2 = none := by rw [hr]
    obtain ⟨w1, hl, hv2⟩ := ih (fun x hx => hconts x (List.mem_cons_of_mem _ hx)) fuel
      (addCaps caps r.2.2) _ _ hv1
    refine ⟨w1, ?_, by simpa [logInbound] using hv2⟩
    rw [List.length_cons, ← Nat.add_assoc, capLoop]
    simp only [e1, e2, hd.2, capStep_continuation L c r.2.1 r.2.2 caps _ hc]
    rw [hl, List.foldl_cons]

theorem capLoop_terminal (L : Libs) (c s : Nat) (wr t chunk : String) (msg : IrcMessage)
    (tokens : String) (caps : CapSet) (w : World) (fuel : Nat)
    (hv : ConnView w c s t [chunk] wr)
    (hd : Delivered L chunk msg) (ht : IsTerminal L msg tokens) :
    ∃ w1, capLoop L c (fuel + 2) caps w = .ok (addCaps caps tokens, w1) ∧
      ConnView w1 c s (logInbound t [chunk] ++ " -> " ++ "QUIT" ++ "\n") []
        (wr ++ ("QUIT" ++ "\r\n")) := by
  obtain ⟨hr, hv1⟩ := GetLine_view_cons w c s t chunk [] wr hv hd.1
  have e1 : (Connection.GetLine c w).1.1 = TrimRight chunk "\r\n" := by rw [hr]
  have e2 : (Connection.GetLine c w).1.2 = none := by rw [hr]
  have hv2 := SendLine_view _ c s _ [] wr "QUIT" hv1
  obtain ⟨hr3, hv3⟩ := GetLine_view_nil _ c s _ _ hv2
  have e3 : (Connection.GetLine c
      (Connection.SendLine c "QUIT" (Connection.GetLine c w).2).2).1.2 = some .EOF := by
    rw [hr3]
  refine ⟨_, ?_, hv3⟩
  rw [capLoop]
  simp only [e1, e2, hd.2, capStep_terminal L c msg tokens caps _ ht]
  rw [capLoop]
  simp only [e3]
theorem foldl_allTokens (lists : List String) (caps : CapSet) :
    (allTokens lists).foldl addCap caps = lists.foldl addCaps caps := by
  unfold allTokens
  induction lists generalizing caps with
  | nil => rfl
  | cons l rest ih =>
    rw [List.map_cons, List.flatten_cons, List.foldl_append, List.foldl_cons, ih]
    rfl

theorem foldl_addCaps_map (conts : List (String × IrcMessage × String)) (caps : CapSet) :
    conts.foldl (fun caps r => addCaps caps r.2.2) caps
      = (conts.map (·.2.2)).foldl addCaps caps := by
  induction conts generalizing caps with
  | nil => rfl
  | cons r rest ih => rw [List.foldl_cons, List.map_cons, List.foldl_cons, ih]

theorem logInbound_append (t : String) (a b : List String) :
    logInbound (logInbound t a) b = logInbound t (a ++ b) := by
  unfold logInbound
  rw [List.foldl_append]

/-- C4: when the server answers `CAP LS 302` with continuation lines (third
parameter `*`, tokens in the fourth) followed by one terminal line (tokens in
the third), all complete and parsed, the capability discovery returns the
capability set obtained by merging the whitespace-separated tokens of all
those lines in order: both maps have the same duplicate-free keys, namely the
names of the tokens; every name is recorded as present; the value of a name is
the text after the first `=` of the last token with that name (empty when it
has none). `QUIT` is sent once, after the terminal line was read: the traffic
log is the `CAP LS 302` entry, the inbound entries of the lines in order, then
the `QUIT` entry. -/
theorem discoverCaps_merge (L : Libs) (rm : RunManager) (w : World) (conn : NetConn)
    (rest : List (Except GoError NetConn))
    (conts : List (String × IrcMessage × String)) (term : String × IrcMessage × String)
    (hdial : w.dials = .ok conn :: rest) (hopen : conn.closed = false)
    (hpend : conn.pending = conts.map (·.1) ++ [term.1])
    (hconts : ∀ r ∈ conts, Delivered L r.1 r.2.1 ∧ IsContinuation L r.2.1 r.2.2)
    (hterm : Delivered L term.1 term.2.1 ∧ IsTerminal L term.2.1 term.2.2) :
    ∃ caps rm1 w1, discoverCaps L rm w = .ok (caps, rm1, w1) ∧
      caps = (allTokens (conts.map (·.2.2) ++ [term.2.2])).foldl addCap ⟨[], []⟩ ∧
      caps.supportedCaps.keys = caps.capValues.keys ∧
      caps.supportedCaps.keys.Nodup ∧
      (∀ name, name ∈ caps.supportedCaps.keys ↔
        ∃ tok ∈ allTokens (conts.map (·.2.2) ++ [term.2.2]), tokenName tok = name) ∧
      (∀ name, caps.supportedCaps.get? name
        = ((allTokens (conts.map (·.2.2) ++ [term.2.2])).reverse.find?
            (fun tok => decide (tokenName tok = name))).map (fun _ => true)) ∧
      (∀ name, caps.capValues.get? name
        = ((allTokens (conts.map (·.2.2) ++ [term.2.2])).reverse.find?
            (fun tok => decide (tokenName tok = name))).map tokenValue) ∧
      Connection.Traffic w1 w.nextConn
        = logInbound " -> CAP LS 302\n" (conts.map (·.1) ++ [term.1]) ++ " -> QUIT\n" ∧
      (w1.sockets w.nextSocket).connection.written
        = conn.written ++ "CAP LS 302\r\n" ++ "QUIT\r\n" := by
  obtain ⟨w1, hnew, hv1⟩ := NewConnection_view rm.Pool rm.Config.Server w conn rest hdial hopen
  have hv2 := SendLine_view w1 w.nextConn w.nextSocket "" conn.pending conn.written
    "CAP LS 302" hv1
  rw [hpend] at hv2
  have hfuel : (pendingOf (Connection.SendLine w.nextConn "CAP LS 302" w1).2 w.nextConn).length
      + 1 = 2 + conts.length := by
    unfold pendingOf
    rw [hv2.1, hv2.2.2]
    simp
    omega
  obtain ⟨w3, hl3, hv3⟩ := capLoop_continuations L w.nextConn w.nextSocket _ [term.1] conts
    hconts 2 ⟨[], []⟩ _ _ hv2
  obtain ⟨w4, hl4, hv4⟩ := capLoop_terminal L w.nextConn w.nextSocket _ _ term.1 term.2.1
    term.2.2 (conts.foldl (fun caps r => addCaps caps r.2.2) ⟨[], []⟩) w3 0 hv3 hterm.1 hterm.2
  have hv5 := DestroyConnection_view ⟨rm.Pool.connections.set w.nextConn true⟩ w4 _ _ _ _ _ hv4
  have hcaps : addCaps (conts.foldl (fun caps r => addCaps caps r.2.2) ⟨[], []⟩) term.2.2
      = (allTokens (conts.map (·.2.2) ++ [term.2.2])).foldl addCap ⟨[], []⟩ := by
    rw [foldl_allTokens, List.foldl_append, foldl_addCaps_map]
    rfl
  have hkeys := foldl_addCap_keys (allTokens (conts.map (·.2.2) ++ [term.2.2])) ⟨[], []⟩ rfl
    List.nodup_nil
  refine ⟨addCaps (conts.foldl (fun caps r => addCaps caps r.2.2) ⟨[], []⟩) term.2.2,
    { rm with Pool := (ConnectionPool.DestroyConnection
        ⟨rm.Pool.connections.set w.nextConn true⟩ w.nextConn w4).1 },
    (ConnectionPool.DestroyConnection ⟨rm.Pool.connections.set w.nextConn true⟩
      w.nextConn w4).2, ?_, hcaps, ?_, ?_, ?_, ?_, ?_, ?_, ?_⟩
  · unfold discoverCaps
    rw [hnew]
    dsimp only
    rw [hfuel, hl3, hl4]
  · rw [hcaps]; exact hkeys.1
  · rw [hcaps]; exact hkeys.2.1
  · intro name
    rw [hcaps, hkeys.2.2 name]
    simp [GoMap.keys]
  · intro name
    rw [hcaps, (foldl_addCap_get? _ _ name).1]
    simp [GoMap.get?]
  · intro name
    rw [hcaps, (foldl_addCap_get? _ _ name).2]
    simp [GoMap.get?]
  · unfold Connection.Traffic
    rw [hv5.2.1, logInbound_append]
    have e0 : ("" : String) ++ " -> " ++ "CAP LS 302" ++ "\n" = " -> CAP LS 302\n" := by decide
    rw [e0, String.append_assoc, String.append_assoc]
    rfl
  · rw [hv5.2.2]
    dsimp only
    have a1 : ("CAP LS 302" ++ "\r\n" : String) = "CAP LS 302\r\n" := by decide
    have a2 : ("QUIT" ++ "\r\n" : String) = "QUIT\r\n" := by decide
    rw [a1, a2]
theorem discoverCaps_merge_witness :
    ((World.init [.ok capsTwoLines] []).dials = .ok capsTwoLines :: [] ∧
      capsTwoLines.closed = false ∧
      capsTwoLines.pending = [contReply].map (·.1) ++ [termReply.1] ∧
      (∀ r ∈ [contReply], Delivered exampleLibs r.1 r.2.1 ∧
        IsContinuation exampleLibs r.2.1 r.2.2) ∧
      (Delivered exampleLibs termReply.1 termReply.2.1 ∧
        IsTerminal exampleLibs termReply.2.1 termReply.2.2) ∧
      ∃ caps rm1 w1,
        discoverCaps exampleLibs exampleRunManager (World.init [.ok capsTwoLines] [])
          = .ok (caps, rm1, w1) ∧
        caps.supportedCaps.keys = ["sasl", "account-notify", "extended-join"] ∧
        caps.capValues.keys.length = 3 ∧
        Connection.Traffic w1 0
          = " -> CAP LS 302\n<-  CAP * LS * :sasl account-notify\n<-  CAP * LS :extended-join\n -> QUIT\n") ∧
    (∃ caps rm1 w1,
      discoverCaps exampleLibs exampleRunManager (World.init [.ok capsOneLine] [])
        = .ok (caps, rm1, w1) ∧
      caps.supportedCaps = [("sasl", true), ("multi-prefix", true)] ∧
      caps.capValues.get? "sasl" = some "PLAIN,EXTERNAL" ∧
      caps.capValues.get? "multi-prefix" = some "" ∧
      Connection.Traffic w1 0
        = " -> CAP LS 302\n<-  CAP * LS :sasl=PLAIN,EXTERNAL multi-prefix\n -> QUIT\n") := by
  have hc : ∀ r ∈ [contReply], Delivered exampleLibs r.1 r.2.1 ∧
      IsContinuation exampleLibs r.2.1 r.2.2 := by
    intro r hr
    rw [List.mem_singleton] at hr
    subst hr
    exact ⟨⟨by decide, rfl⟩, rfl, "*", "LS", [], rfl, by decide⟩
  have ht : Delivered exampleLibs termReply.1 termReply.2.1 ∧
      IsTerminal exampleLibs termReply.2.1 termReply.2.2 :=
    ⟨⟨by decide, rfl⟩, rfl, by decide, "*", "LS", [], rfl, by decide⟩
  have ho : Delivered exampleLibs oneLineReply.1 oneLineReply.2.1 ∧
      IsTerminal exampleLibs oneLineReply.2.1 oneLineReply.2.2 :=
    ⟨⟨by decide, rfl⟩, rfl, by decide, "*", "LS", [], rfl, by decide⟩
  refine ⟨⟨rfl, rfl, rfl, hc, ht, ?_⟩, ?_⟩
  · obtain ⟨caps, rm1, w1, hrun, hcaps, _, _, _, _, _, htr, _⟩ :=
      discoverCaps_merge exampleLibs exampleRunManager (World.init [.ok capsTwoLines] [])
        capsTwoLines [] [contReply] termReply rfl rfl rfl hc ht
    subst hcaps
    exact ⟨_, rm1, w1, hrun, by decide, by decide, htr.trans (by decide)⟩
  · obtain ⟨caps, rm1, w1, hrun, hcaps, _, _, _, _, _, htr, _⟩ :=
      discoverCaps_merge exampleLibs exampleRunManager (World.init [.ok capsOneLine] [])
        capsOneLine [] [] oneLineReply rfl rfl rfl (by simp) ho
    subst hcaps
    exact ⟨_, rm1, w1, hrun, by decide, by decide, by decide, htr.trans (by decide)⟩

/-! ## The Login-PLAIN handler always returns -/

theorem Socket.GetLine_none (s : Socket) (h : s.GetLine.1.2 = none) :
    s.GetLine.2.connection.pending.length + 1 = s.connection.pending.length := by
  obtain ⟨⟨p, wr, cl⟩, cn⟩ := s
  unfold Socket.GetLine Socket.Connected NetConn.ReadBytes at h ⊢
  cases cn <;> cases cl <;> cases p with
  | nil => simp at h
  | cons chunk rest =>
    first
    | (simp at h; done)
    | (by_cases hnl : chunk.data.getLast? = some (Char.ofNat 10)
       · simp [hnl]
       · simp [hnl] at h)

theorem GetLine_pending (c : Nat) (w : World) (h : (Connection.GetLine c w).1.2 = none) :
    (pendingOf (Connection.GetLine c w).2 c).length + 1 = (pendingOf w c).length := by
  have hs : (w.sockets (w.conns c).socket).GetLine.1.2 = none := by
    unfold Connection.GetLine at h
    dsimp only at h
    split at h
    · assumption
    · simp at h
  have hlen := Socket.GetLine_none _ hs
  unfold pendingOf Connection.GetLine
  dsimp only
  rw [hs]
  dsimp only
  rw [Function.update_same, Function.update_same]
  exact hlen

theorem saslLoop_returns (L : Libs) (name : String) (c : Nat) :
    ∀ (fuel : Nat) (got900 got903 : Bool) (w : World), (pendingOf w c).length < fuel →
      ∃ call w1, saslLoop L name c fuel got900 got903 w = some (call, true, w1) ∧
        call.name = name := by
  intro fuel
  induction fuel with
  | zero => intro _ _ w h; exact absurd h (Nat.not_lt_zero _)
  | succ f ih =>
    intro got900 got903 w hlt
    rw [saslLoop]
    dsimp only
    cases he : (Connection.GetLine c w).1.2 with
    | some err => exact ⟨_, _, rfl, rfl⟩
    | none =>
      have hp := GetLine_pending c w he
      dsimp only
      cases hparse : L.ParseLine (Connection.GetLine c w).1.1 with
      | error err => exact ⟨_, _, rfl, rfl⟩
      | ok msg =>
        dsimp only
        by_cases h001 : msg.Command = "001"
        · rw [if_pos h001]
          by_cases hg : (got900 && got903) = true
          · rw [if_pos hg]; exact ⟨_, _, rfl, rfl⟩
          · rw [if_neg hg]; exact ⟨_, _, rfl, rfl⟩
        · rw [if_neg h001]
          by_cases h903 : msg.Command = "903" ∧
              (!(if msg.Command = "900" then true else got900)) = true
          · rw [if_pos h903]; exact ⟨_, _, rfl, rfl⟩
          · rw [if_neg h903]
            by_cases hfail : msg.Command ∈ saslFailureNumerics
            · rw [if_pos hfail]; exact ⟨_, _, rfl, rfl⟩
            · rw [if_neg hfail]
              exact ih _ _ _ (by omega)

theorem NewConnection_cases (cp : ConnectionPool) (sc : ServerConfig) (w : World) :
    (∃ err pool w1, cp.NewConnection sc w = (.error err, pool, w1) ∧
      ∃ e, (ConnectSocket sc.Address sc.TLS w).1 = .error e) ∨
    (∃ c pool w1, cp.NewConnection sc w = (.ok c, pool, w1) ∧
      ∃ s, (ConnectSocket sc.Address sc.TLS w).1 = .ok s) := by
  unfold ConnectionPool.NewConnection
  rcases hc : ConnectSocket sc.Address sc.TLS w with ⟨res, w1⟩
  cases res with
  | error e => exact Or.inl ⟨_, _, _, rfl, e, rfl⟩
  | ok s => exact Or.inr ⟨_, _, _, rfl, s, rfl⟩

/-- C8: the Login-PLAIN handler always returns and makes exactly one call of
`Set`, under the name it was given; it returns false exactly when an account is
configured and the connection cannot be set up, and in that case the call it
has made records Failure. At the input shown (one account, a refused dial) the
handler records Failure and returns false. -/
theorem saslHandler_returns_false_after_Failure :
    (∀ (L : Libs) (name : String) (rm : RunManager) (w : World),
      ∃ run call, saslLoginPlainHandler L name rm w = some run ∧
        run.sets = [call] ∧ call.name = name ∧
        (run.ret = false ↔
          (rm.Config.Accounts ≠ [] ∧
            ∃ e, (ConnectSocket rm.Config.Server.Address rm.Config.Server.TLS w).1
              = .error e)) ∧
        (run.ret = true ∨ call.code = .Failure)) ∧
    (∀ (L : Libs) (name : String),
      (saslLoginPlainHandler L name exampleRunManager
          (World.init [.error (.other "connection refused")] [])).map
        (fun run => (run.sets, run.ret))
      = some ([⟨name, .Failure,
          "Could not setup new connection: Failed to connect to server: connection refused",
          ""⟩], false)) := by
  refine ⟨fun L name rm w => ?_, fun L name => rfl⟩
  unfold saslLoginPlainHandler
  cases hacc : rm.Config.Accounts with
  | nil => exact ⟨_, _, rfl, rfl, rfl, by simp, Or.inl rfl⟩
  | cons acc accs =>
    dsimp only
    rcases NewConnection_cases rm.Pool rm.Config.Server w with
      ⟨err, pool, w1, hnew, e, he⟩ | ⟨c, pool, w1, hnew, s, hs⟩
    · rw [hnew]
      exact ⟨_, _, rfl, rfl, rfl, by simp [he], Or.inr rfl⟩
    · rw [hnew]
      dsimp only
      obtain ⟨call, w3, hloop, hname⟩ := saslLoop_returns L name c
        ((pendingOf (saslSendAll L name acc c w1) c).length + 1) false false
        (saslSendAll L name acc c w1) (Nat.lt_succ_self _)
      rw [hloop]
      exact ⟨_, call, rfl, rfl, hname, by simp [hs], Or.inl rfl⟩

/-! ## The negotiation loop never runs out of iterations -/

theorem SendLine_pending (c : Nat) (line : String) (w : World) :
    pendingOf (Connection.SendLine c line w).2 c = pendingOf w c := by
  unfold pendingOf Connection.SendLine
  dsimp only
  rw [Function.update_same, Function.update_same]
  exact (Socket.SendLine_keeps _ line).2.2

theorem capStep_pending (L : Libs) (c : Nat) (msg : IrcMessage) (caps : CapSet) (w : World) :
    (∃ m, capStep L c msg caps w = .error (.panic m)) ∨
    (∃ caps1 w1, capStep L c msg caps w = .ok (caps1, w1) ∧ pendingOf w1 c = pendingOf w c) := by
  unfold capStep
  split
  · split
    · split
      · split
        · exact Or.inl ⟨_, rfl⟩
        · exact Or.inr ⟨_, _, rfl, rfl⟩
      · exact Or.inr ⟨_, _, rfl, SendLine_pending c "QUIT" w⟩
    · exact Or.inr ⟨_, _, rfl, rfl⟩
  · exact Or.inr ⟨_, _, rfl, rfl⟩

theorem capLoop_no_diverge (L : Libs) (c : Nat) :
    ∀ (fuel : Nat) (caps : CapSet) (w : World), (pendingOf w c).length < fuel →
      capLoop L c fuel caps w ≠ .error .diverge := by
  intro fuel
  induction fuel with
  | zero => intro _ w h; exact absurd h (Nat.not_lt_zero _)
  | succ f ih =>
    intro caps w hlt
    rw [capLoop]
    cases he : (Connection.GetLine c w).1.2 with
    | some err => simp
    | none =>
      have hp := GetLine_pending c w he
      dsimp only
      cases hparse : L.ParseLine (Connection.GetLine c w).1.1 with
      | error err => simp
      | ok msg =>
        dsimp only
        rcases capStep_pending L c msg caps (Connection.GetLine c w).2 with
          ⟨m, hm⟩ | ⟨caps1, w1, hok, hpend⟩
        · rw [hm]; simp
        · rw [hok]
          exact ih caps1 w1 (by rw [hpend]; omega)

end Ircts
